import Mathlib

/- Verification of the wasmvm query protocol types (src/types/queries.go).

   The Go code is embedded shallowly:
   * byte slices (`[]byte`) become `Bytes := List (Fin 256)`; Go's nil slice and
     the empty slice are identified (they are indistinguishable for every
     operation the claims exercise);
   * Go strings stay `String`, pointers become `Option`, `uint64`/`uint16`
     become `Fin` of the corresponding size;
   * the JSON wire format produced and consumed by encoding/json is modelled
     as a tree (`Json`), together with the standard base64 encoding Go uses
     for `[]byte` values and a compact renderer matching `json.Marshal`
     output for the one claim that is about exact bytes. -/

abbrev Byte := Fin 256
abbrev Bytes := List Byte

/-- JSON values as produced and consumed by Go's encoding/json. Numbers are
restricted to integers, which covers every numeric field of this protocol. -/
inductive Json where
  | null
  | bool (b : Bool)
  | num (n : Int)
  | str (s : String)
  | arr (xs : List Json)
  | obj (fields : List (String × Json))

/-- The keys of a JSON object (the populated wire fields); `[]` for non-objects. -/
def Json.objKeys : Json → List String
  | .obj fs => fs.map (fun kv => kv.1)
  | _ => []

/-! ## base64 (Go `encoding/base64` StdEncoding, as used by encoding/json
for `[]byte` struct fields) -/

/-- The standard base64 alphabet. -/
def b64Chars : List Char :=
  "ABCDEFGHIJKLMNOPQRSTUVWXYZabcdefghijklmnopqrstuvwxyz0123456789+/".toList

def b64Char (n : Fin 64) : Char := b64Chars.getD n.val 'A'

def b64Index (c : Char) : Option (Fin 64) :=
  let i := b64Chars.indexOf c
  if h : i < 64 then some ⟨i, h⟩ else none

def b64EncodeChunks : Bytes → List Char
  | a :: b :: c :: rest =>
      b64Char ⟨a.val / 4, by have ha := a.isLt; omega⟩ ::
      b64Char ⟨a.val % 4 * 16 + b.val / 16, by have hb := b.isLt; omega⟩ ::
      b64Char ⟨b.val % 16 * 4 + c.val / 64, by have hc := c.isLt; omega⟩ ::
      b64Char ⟨c.val % 64, by omega⟩ :: b64EncodeChunks rest
  | [a, b] =>
      [b64Char ⟨a.val / 4, by have ha := a.isLt; omega⟩,
       b64Char ⟨a.val % 4 * 16 + b.val / 16, by have hb := b.isLt; omega⟩,
       b64Char ⟨b.val % 16 * 4, by omega⟩, '=']
  | [a] =>
      [b64Char ⟨a.val / 4, by have ha := a.isLt; omega⟩,
       b64Char ⟨a.val % 4 * 16, by omega⟩, '=', '=']
  | [] => []

/-- First output byte of a decoded base64 quantum. -/
def b64Byte1 (s1 s2 : Fin 64) : Byte :=
  ⟨s1.val * 4 + s2.val / 16, by have h1 := s1.isLt; have h2 := s2.isLt; omega⟩

/-- Second output byte of a decoded base64 quantum. -/
def b64Byte2 (s2 s3 : Fin 64) : Byte :=
  ⟨s2.val % 16 * 16 + s3.val / 4, by have h3 := s3.isLt; omega⟩

/-- Third output byte of a decoded base64 quantum. -/
def b64Byte3 (s3 s4 : Fin 64) : Byte :=
  ⟨s3.val % 4 * 64 + s4.val, by have h4 := s4.isLt; omega⟩

/-- base64 decoding; like Go's StdEncoding it insists on padding and on
canonical (zero) trailing bits. -/
def b64DecodeChunks : List Char → Option Bytes
  | c1 :: c2 :: c3 :: c4 :: rest =>
      if rest = [] ∧ c3 = '=' ∧ c4 = '=' then do
        let s1 ← b64Index c1
        let s2 ← b64Index c2
        if s2.val % 16 = 0 then some [b64Byte1 s1 s2] else none
      else if rest = [] ∧ c4 = '=' then do
        let s1 ← b64Index c1
        let s2 ← b64Index c2
        let s3 ← b64Index c3
        if s3.val % 4 = 0 then some [b64Byte1 s1 s2, b64Byte2 s2 s3] else none
      else do
        let s1 ← b64Index c1
        let s2 ← b64Index c2
        let s3 ← b64Index c3
        let s4 ← b64Index c4
        let tail ← b64DecodeChunks rest
        some (b64Byte1 s1 s2 :: b64Byte2 s2 s3 :: b64Byte3 s3 s4 :: tail)
  | [] => some []
  | _ => none

def base64Encode (bs : Bytes) : String := String.mk (b64EncodeChunks bs)

def base64Decode (s : String) : Option Bytes := b64DecodeChunks s.toList

theorem val_mk_eq {n m : Nat} (h : m < n) : (⟨m, h⟩ : Fin n).val = m := rfl

theorem b64Index_b64Char : ∀ n : Fin 64, b64Index (b64Char n) = some n := by decide

theorem b64Char_ne_pad : ∀ n : Fin 64, ¬ b64Char n = '=' := by decide

theorem b64_chunks_roundtrip : ∀ bs : Bytes, b64DecodeChunks (b64EncodeChunks bs) = some bs
  | [] => rfl
  | [a] => by
      obtain ⟨a, ha⟩ := a
      simp only [b64EncodeChunks, b64DecodeChunks]
      rw [if_pos (by simp)]
      simp only [b64Index_b64Char, Option.bind_eq_bind, Option.some_bind, b64Byte1, val_mk_eq]
      rw [if_pos (by omega)]
      simp only [Option.some.injEq, List.cons.injEq, and_true, Fin.mk.injEq]
      omega
  | [a, b] => by
      obtain ⟨a, ha⟩ := a
      obtain ⟨b, hb⟩ := b
      simp only [b64EncodeChunks, b64DecodeChunks]
      rw [if_neg (by simp [b64Char_ne_pad])]
      rw [if_pos (by simp [b64Char_ne_pad])]
      simp only [b64Index_b64Char, Option.bind_eq_bind, Option.some_bind, b64Byte1, b64Byte2,
        val_mk_eq]
      rw [if_pos (by omega)]
      simp only [Option.some.injEq, List.cons.injEq, and_true, Fin.mk.injEq]
      omega
  | a :: b :: c :: rest => by
      obtain ⟨a, ha⟩ := a
      obtain ⟨b, hb⟩ := b
      obtain ⟨c, hc⟩ := c
      have ih := b64_chunks_roundtrip rest
      simp only [b64EncodeChunks, b64DecodeChunks]
      rw [if_neg (by simp [b64Char_ne_pad])]
      rw [if_neg (by simp [b64Char_ne_pad])]
      simp only [b64Index_b64Char, Option.bind_eq_bind, Option.some_bind, b64Byte1, b64Byte2,
        b64Byte3, val_mk_eq, ih]
      simp only [Option.some.injEq, List.cons.injEq, and_true, Fin.mk.injEq]
      omega

theorem base64_roundtrip (bs : Bytes) : base64Decode (base64Encode bs) = some bs := by
  simpa [base64Encode, base64Decode, String.toList] using b64_chunks_roundtrip bs

/-! ## Rendering a `Json` tree to bytes (compact `json.Marshal` output,
including Go's default HTML escaping) -/

def hexDigit (n : Nat) : Char :=
  if n < 10 then Char.ofNat (48 + n) else Char.ofNat (87 + n)

def escapeChar (c : Char) : String :=
  if c = '"' then "\\\""
  else if c = '\\' then "\\\\"
  else if c = '\n' then "\\n"
  else if c = '\r' then "\\r"
  else if c = '\t' then "\\t"
  else if c = '<' then "\\u003c"
  else if c = '>' then "\\u003e"
  else if c = '&' then "\\u0026"
  else if c.toNat < 32 then
    "\\u00" ++ String.mk [hexDigit (c.toNat / 16), hexDigit (c.toNat % 16)]
  else String.singleton c

def renderString (s : String) : String :=
  "\"" ++ String.join (s.toList.map escapeChar) ++ "\""

mutual

def renderJson : Json → String
  | .null => "null"
  | .bool true => "true"
  | .bool false => "false"
  | .num n => toString n
  | .str s => renderString s
  | .arr xs => "[" ++ renderItems xs ++ "]"
  | .obj fs => "\x7b" ++ renderFields fs ++ "\x7d"

def renderItems : List Json → String
  | [] => ""
  | [x] => renderJson x
  | x :: rest => renderJson x ++ "," ++ renderItems rest

def renderFields : List (String × Json) → String
  | [] => ""
  | [(k, v)] => renderString k ++ ":" ++ renderJson v
  | (k, v) :: rest => renderString k ++ ":" ++ renderJson v ++ "," ++ renderFields rest

end

/-! ## Generic pieces of Go's encoding/json behaviour on the struct shapes
this file uses -/

abbrev U64 := Fin 18446744073709551616
abbrev U16 := Fin 65536

/-- Go `json.Unmarshal` of a JSON value into a `string` struct field: a JSON
string replaces the current value, `null` leaves the field unchanged,
anything else is a type error. -/
def asString : Json → String → Except String String
  | .str s, _ => .ok s
  | .null, cur => .ok cur
  | _, _ => .error "json: cannot unmarshal value into field of type string"

/-- Go `json.Unmarshal` into a `[]byte` field: a string is base64-decoded,
`null` produces the nil slice. -/
def asBytes : Json → Except String Bytes
  | .str s =>
      match base64Decode s with
      | some bs => .ok bs
      | none => .error "json: illegal base64 data"
  | .null => .ok []
  | _ => .error "json: cannot unmarshal value into field of type []byte"

def asBool : Json → Bool → Except String Bool
  | .bool b, _ => .ok b
  | .null, cur => .ok cur
  | _, _ => .error "json: cannot unmarshal value into field of type bool"

def asU64 : Json → U64 → Except String U64
  | .num (.ofNat n), _ =>
      if h : n < 18446744073709551616 then .ok ⟨n, h⟩
      else .error "json: number out of range for uint64"
  | .num (.negSucc _), _ => .error "json: number out of range for uint64"
  | .null, cur => .ok cur
  | _, _ => .error "json: cannot unmarshal value into field of type uint64"

def asU16 : Json → U16 → Except String U16
  | .num (.ofNat n), _ =>
      if h : n < 65536 then .ok ⟨n, h⟩
      else .error "json: number out of range for uint16"
  | .num (.negSucc _), _ => .error "json: number out of range for uint16"
  | .null, cur => .ok cur
  | _, _ => .error "json: cannot unmarshal value into field of type uint16"

/-- Go `json.Unmarshal` into a pointer field: `null` yields the nil pointer,
anything else is decoded into a fresh value of the pointee type. -/
def asOpt {α : Type} (dec : Json → Except String α) : Json → Except String (Option α)
  | .null => .ok none
  | v => (dec v).map some

/-- Go `json.Unmarshal` into a slice field: `null` yields the nil slice, an
array decodes elementwise. -/
def asList {α : Type} (dec : Json → Except String α) : Json → Except String (List α)
  | .null => .ok []
  | .arr xs => xs.mapM dec
  | _ => .error "json: cannot unmarshal value into slice field"

/-- Go `json.Unmarshal` of a value into a struct: `null` is a no-op, an
object is folded field by field (later duplicate keys overwrite earlier ones;
unknown keys are ignored by the per-type `step`), anything else is a type
error. -/
def unmarshalStruct {α : Type} (step : α → String → Json → Except String α)
    (init : α) : Json → Except String α
  | .null => .ok init
  | .obj fs => fs.foldlM (fun acc kv => step acc kv.1 kv.2) init
  | _ => .error "json: cannot unmarshal value into Go struct"

/-- An `omitempty` pointer field: present exactly when the pointer is set. -/
def optField {α : Type} (tag : String) (enc : α → Json) : Option α → List (String × Json)
  | some a => [(tag, enc a)]
  | none => []

/-- A string field tagged `omitempty`: dropped when empty. -/
def strFieldOmit (tag : String) (s : String) : List (String × Json) :=
  if s = "" then [] else [(tag, .str s)]

/-- A `[]byte` field tagged `omitempty`: dropped when empty. -/
def bytesFieldOmit (tag : String) (bs : Bytes) : List (String × Json) :=
  if bs = [] then [] else [(tag, .str (base64Encode bs))]

/-! ## QueryResult (src/types/queries.go lines 10-28) -/

/-- Go struct `queryResultImpl`: `Ok []byte` tagged `ok,omitempty` and
`Err string` tagged `error,omitempty`. -/
structure queryResultImpl where
  Ok : Bytes := []
  Err : String := ""
deriving DecidableEq

/-- Go declares `type QueryResult queryResultImpl`; the JSON tags are used
for deserializing directly, marshalling goes through the custom serializer. -/
abbrev QueryResult := queryResultImpl

/-- Plain `json.Marshal` of `queryResultImpl` (what the non-degenerate branch
of the custom serializer produces). -/
def marshalQueryResultImpl (q : queryResultImpl) : Json :=
  .obj (bytesFieldOmit "ok" q.Ok ++ strFieldOmit "error" q.Err)

/-- `QueryResult.MarshalJSON` at the level of the wire tree: in case both Ok
and Err are empty this is serialized as an Ok case with no data. -/
def marshalQueryResultJson (q : QueryResult) : Json :=
  if q.Ok.length = 0 ∧ q.Err.length = 0 then .obj [("ok", .str "")]
  else marshalQueryResultImpl q

/-- `QueryResult.MarshalJSON` returning the marshalled bytes themselves; the
degenerate branch returns a byte-for-byte literal in the Go source. -/
def marshalQueryResultBytes (q : QueryResult) : String :=
  if q.Ok.length = 0 ∧ q.Err.length = 0 then "\x7b\"ok\":\"\"\x7d"
  else renderJson (marshalQueryResultImpl q)

def queryResultStep (acc : queryResultImpl) (key : String) (v : Json) :
    Except String queryResultImpl :=
  if key = "ok" then (asBytes v).map (fun bs => { acc with Ok := bs })
  else if key = "error" then (asString v acc.Err).map (fun s => { acc with Err := s })
  else .ok acc

/-- `json.Unmarshal` into a `QueryResult` (deserializing uses the plain JSON
annotations of `queryResultImpl`). -/
def unmarshalQueryResult : Json → Except String QueryResult :=
  unmarshalStruct queryResultStep {}

theorem base64Decode_empty : base64Decode "" = some [] := rfl

theorem string_length_eq_zero (s : String) : s.length = 0 ↔ s = "" := by
  constructor
  · intro h
    obtain ⟨l⟩ := s
    cases l with
    | nil => rfl
    | cons c cs => simp [String.length] at h
  · intro h
    subst h
    rfl

theorem except_pure_eq {ε α : Type} (a : α) : (pure a : Except ε α) = .ok a := rfl

theorem except_ok_bind {ε α β : Type} (a : α) (f : α → Except ε β) :
    (Except.ok a >>= f : Except ε β) = f a := rfl

theorem except_error_bind {ε α β : Type} (e : ε) (f : α → Except ε β) :
    ((Except.error e : Except ε α) >>= f) = .error e := rfl

theorem unmarshal_marshal_QueryResult (q : QueryResult) :
    unmarshalQueryResult (marshalQueryResultJson q) = .ok q := by
  obtain ⟨ok, err⟩ := q
  by_cases hok : ok = [] <;> by_cases herr : err = "" <;>
    simp [marshalQueryResultJson, marshalQueryResultImpl, unmarshalQueryResult, unmarshalStruct,
      queryResultStep, bytesFieldOmit, strFieldOmit, asBytes, asString, base64_roundtrip,
      base64Decode_empty, hok, herr, List.foldlM, string_length_eq_zero, Except.map,
      except_ok_bind, except_error_bind]

/-! ## Bank queries (src/types/queries.go lines 114-170) -/

structure SupplyQuery where
  Denom : String := ""
deriving DecidableEq

def encodeSupplyQuery (q : SupplyQuery) : Json :=
  .obj [("denom", .str q.Denom)]

def supplyQueryStep (acc : SupplyQuery) (key : String) (v : Json) : Except String SupplyQuery :=
  if key = "denom" then (asString v acc.Denom).map (fun s => { acc with Denom := s })
  else .ok acc

def unmarshalSupplyQuery : Json → Except String SupplyQuery :=
  unmarshalStruct supplyQueryStep {}

theorem unmarshal_encode_SupplyQuery (q : SupplyQuery) :
    unmarshalSupplyQuery (encodeSupplyQuery q) = .ok q := rfl

theorem asOpt_SupplyQuery (q : SupplyQuery) :
    asOpt unmarshalSupplyQuery (encodeSupplyQuery q) = .ok (some q) := by
  show (unmarshalSupplyQuery (encodeSupplyQuery q)).map some = .ok (some q)
  rw [unmarshal_encode_SupplyQuery]
  rfl

structure BalanceQuery where
  Address : String := ""
  Denom : String := ""
deriving DecidableEq

def encodeBalanceQuery (q : BalanceQuery) : Json :=
  .obj [("address", .str q.Address), ("denom", .str q.Denom)]

def balanceQueryStep (acc : BalanceQuery) (key : String) (v : Json) :
    Except String BalanceQuery :=
  if key = "address" then (asString v acc.Address).map (fun s => { acc with Address := s })
  else if key = "denom" then (asString v acc.Denom).map (fun s => { acc with Denom := s })
  else .ok acc

def unmarshalBalanceQuery : Json → Except String BalanceQuery :=
  unmarshalStruct balanceQueryStep {}

theorem unmarshal_encode_BalanceQuery (q : BalanceQuery) :
    unmarshalBalanceQuery (encodeBalanceQuery q) = .ok q := rfl

theorem asOpt_BalanceQuery (q : BalanceQuery) :
    asOpt unmarshalBalanceQuery (encodeBalanceQuery q) = .ok (some q) := by
  show (unmarshalBalanceQuery (encodeBalanceQuery q)).map some = .ok (some q)
  rw [unmarshal_encode_BalanceQuery]
  rfl

structure AllBalancesQuery where
  Address : String := ""
deriving DecidableEq

def encodeAllBalancesQuery (q : AllBalancesQuery) : Json :=
  .obj [("address", .str q.Address)]

def allBalancesQueryStep (acc : AllBalancesQuery) (key : String) (v : Json) :
    Except String AllBalancesQuery :=
  if key = "address" then (asString v acc.Address).map (fun s => { acc with Address := s })
  else .ok acc

def unmarshalAllBalancesQuery : Json → Except String AllBalancesQuery :=
  unmarshalStruct allBalancesQueryStep {}

theorem unmarshal_encode_AllBalancesQuery (q : AllBalancesQuery) :
    unmarshalAllBalancesQuery (encodeAllBalancesQuery q) = .ok q := rfl

theorem asOpt_AllBalancesQuery (q : AllBalancesQuery) :
    asOpt unmarshalAllBalancesQuery (encodeAllBalancesQuery q) = .ok (some q) := by
  show (unmarshalAllBalancesQuery (encodeAllBalancesQuery q)).map some = .ok (some q)
  rw [unmarshal_encode_AllBalancesQuery]
  rfl

structure DenomMetadataQuery where
  Denom : String := ""
deriving DecidableEq

def encodeDenomMetadataQuery (q : DenomMetadataQuery) : Json :=
  .obj [("denom", .str q.Denom)]

def denomMetadataQueryStep (acc : DenomMetadataQuery) (key : String) (v : Json) :
    Except String DenomMetadataQuery :=
  if key = "denom" then (asString v acc.Denom).map (fun s => { acc with Denom := s })
  else .ok acc

def unmarshalDenomMetadataQuery : Json → Except String DenomMetadataQuery :=
  unmarshalStruct denomMetadataQueryStep {}

theorem unmarshal_encode_DenomMetadataQuery (q : DenomMetadataQuery) :
    unmarshalDenomMetadataQuery (encodeDenomMetadataQuery q) = .ok q := rfl

theorem asOpt_DenomMetadataQuery (q : DenomMetadataQuery) :
    asOpt unmarshalDenomMetadataQuery (encodeDenomMetadataQuery q) = .ok (some q) := by
  show (unmarshalDenomMetadataQuery (encodeDenomMetadataQuery q)).map some = .ok (some q)
  rw [unmarshal_encode_DenomMetadataQuery]
  rfl

/-- Modelled from the spec: `PageRequest` is declared outside
src/types/queries.go (only its use as an optional pagination argument is
visible there), and the spec describes it only as "an optional argument"
whose default is used when omitted; it is therefore modelled as an opaque
struct whose wire object's fields are carried through the codec unchanged. -/
structure PageRequest where
  raw : List (String × Json) := []

def encodePageRequest (q : PageRequest) : Json := .obj q.raw

def unmarshalPageRequest : Json → Except String PageRequest
  | .obj fs => .ok ⟨fs⟩
  | .null => .ok {}
  | _ => .error "json: cannot unmarshal value into Go struct"

structure AllDenomMetadataQuery where
  Pagination : Option PageRequest := none

def encodeAllDenomMetadataQuery (q : AllDenomMetadataQuery) : Json :=
  .obj (optField "pagination" encodePageRequest q.Pagination)

def allDenomMetadataQueryStep (acc : AllDenomMetadataQuery) (key : String) (v : Json) :
    Except String AllDenomMetadataQuery :=
  if key = "pagination" then
    (asOpt unmarshalPageRequest v).map (fun o => { acc with Pagination := o })
  else .ok acc

def unmarshalAllDenomMetadataQuery : Json → Except String AllDenomMetadataQuery :=
  unmarshalStruct allDenomMetadataQueryStep {}

theorem unmarshal_encode_AllDenomMetadataQuery (q : AllDenomMetadataQuery) :
    unmarshalAllDenomMetadataQuery (encodeAllDenomMetadataQuery q) = .ok q := by
  obtain ⟨p⟩ := q
  rcases p with _ | ⟨fs⟩ <;> rfl

theorem asOpt_AllDenomMetadataQuery (q : AllDenomMetadataQuery) :
    asOpt unmarshalAllDenomMetadataQuery (encodeAllDenomMetadataQuery q) = .ok (some q) := by
  show (unmarshalAllDenomMetadataQuery (encodeAllDenomMetadataQuery q)).map some = .ok (some q)
  rw [unmarshal_encode_AllDenomMetadataQuery]
  rfl

structure BankQuery where
  Supply : Option SupplyQuery := none
  Balance : Option BalanceQuery := none
  AllBalances : Option AllBalancesQuery := none
  DenomMetadata : Option DenomMetadataQuery := none
  AllDenomMetadata : Option AllDenomMetadataQuery := none

def encodeBankQuery (q : BankQuery) : Json :=
  .obj (optField "supply" encodeSupplyQuery q.Supply ++
    optField "balance" encodeBalanceQuery q.Balance ++
    optField "all_balances" encodeAllBalancesQuery q.AllBalances ++
    optField "denom_metadata" encodeDenomMetadataQuery q.DenomMetadata ++
    optField "all_denom_metadata" encodeAllDenomMetadataQuery q.AllDenomMetadata)

def bankQueryStep (acc : BankQuery) (key : String) (v : Json) : Except String BankQuery :=
  if key = "supply" then
    (asOpt unmarshalSupplyQuery v).map (fun o => { acc with Supply := o })
  else if key = "balance" then
    (asOpt unmarshalBalanceQuery v).map (fun o => { acc with Balance := o })
  else if key = "all_balances" then
    (asOpt unmarshalAllBalancesQuery v).map (fun o => { acc with AllBalances := o })
  else if key = "denom_metadata" then
    (asOpt unmarshalDenomMetadataQuery v).map (fun o => { acc with DenomMetadata := o })
  else if key = "all_denom_metadata" then
    (asOpt unmarshalAllDenomMetadataQuery v).map (fun o => { acc with AllDenomMetadata := o })
  else .ok acc

def unmarshalBankQuery : Json → Except String BankQuery :=
  unmarshalStruct bankQueryStep {}

theorem unmarshal_encode_BankQuery (q : BankQuery) :
    unmarshalBankQuery (encodeBankQuery q) = .ok q := by
  obtain ⟨s, b, ab, dm, adm⟩ := q
  rcases s with _ | s <;> rcases b with _ | b <;> rcases ab with _ | ab <;>
    rcases dm with _ | dm <;> rcases adm with _ | adm <;>
    simp [encodeBankQuery, unmarshalBankQuery, unmarshalStruct, bankQueryStep, optField,
      asOpt_SupplyQuery, asOpt_BalanceQuery, asOpt_AllBalancesQuery, asOpt_DenomMetadataQuery,
      asOpt_AllDenomMetadataQuery, List.foldlM, except_ok_bind, except_pure_eq, Except.map]

theorem asOpt_BankQuery (q : BankQuery) :
    asOpt unmarshalBankQuery (encodeBankQuery q) = .ok (some q) := by
  show (unmarshalBankQuery (encodeBankQuery q)).map some = .ok (some q)
  rw [unmarshal_encode_BankQuery]
  rfl

/-! ## IBC queries (src/types/queries.go lines 172-208) -/

structure PortIDQuery where
deriving DecidableEq

def encodePortIDQuery (_ : PortIDQuery) : Json := .obj []

def portIDQueryStep (acc : PortIDQuery) (_ : String) (_ : Json) : Except String PortIDQuery :=
  .ok acc

def unmarshalPortIDQuery : Json → Except String PortIDQuery :=
  unmarshalStruct portIDQueryStep {}

theorem unmarshal_encode_PortIDQuery (q : PortIDQuery) :
    unmarshalPortIDQuery (encodePortIDQuery q) = .ok q := rfl

theorem asOpt_PortIDQuery (q : PortIDQuery) :
    asOpt unmarshalPortIDQuery (encodePortIDQuery q) = .ok (some q) := by
  show (unmarshalPortIDQuery (encodePortIDQuery q)).map some = .ok (some q)
  rw [unmarshal_encode_PortIDQuery]
  rfl

structure ListChannelsQuery where
  PortID : String := ""
deriving DecidableEq

def encodeListChannelsQuery (q : ListChannelsQuery) : Json :=
  .obj (strFieldOmit "port_id" q.PortID)

def listChannelsQueryStep (acc : ListChannelsQuery) (key : String) (v : Json) :
    Except String ListChannelsQuery :=
  if key = "port_id" then (asString v acc.PortID).map (fun s => { acc with PortID := s })
  else .ok acc

def unmarshalListChannelsQuery : Json → Except String ListChannelsQuery :=
  unmarshalStruct listChannelsQueryStep {}

theorem unmarshal_encode_ListChannelsQuery (q : ListChannelsQuery) :
    unmarshalListChannelsQuery (encodeListChannelsQuery q) = .ok q := by
  obtain ⟨p⟩ := q
  by_cases hp : p = "" <;>
    simp [encodeListChannelsQuery, unmarshalListChannelsQuery, unmarshalStruct,
      listChannelsQueryStep, strFieldOmit, asString, hp, List.foldlM, except_ok_bind,
      except_pure_eq, Except.map]

theorem asOpt_ListChannelsQuery (q : ListChannelsQuery) :
    asOpt unmarshalListChannelsQuery (encodeListChannelsQuery q) = .ok (some q) := by
  show (unmarshalListChannelsQuery (encodeListChannelsQuery q)).map some = .ok (some q)
  rw [unmarshal_encode_ListChannelsQuery]
  rfl

structure ChannelQuery where
  PortID : String := ""
  ChannelID : String := ""
deriving DecidableEq

def encodeChannelQuery (q : ChannelQuery) : Json :=
  .obj (strFieldOmit "port_id" q.PortID ++ [("channel_id", .str q.ChannelID)])

def channelQueryStep (acc : ChannelQuery) (key : String) (v : Json) :
    Except String ChannelQuery :=
  if key = "port_id" then (asString v acc.PortID).map (fun s => { acc with PortID := s })
  else if key = "channel_id" then
    (asString v acc.ChannelID).map (fun s => { acc with ChannelID := s })
  else .ok acc

def unmarshalChannelQuery : Json → Except String ChannelQuery :=
  unmarshalStruct channelQueryStep {}

theorem unmarshal_encode_ChannelQuery (q : ChannelQuery) :
    unmarshalChannelQuery (encodeChannelQuery q) = .ok q := by
  obtain ⟨p, c⟩ := q
  by_cases hp : p = "" <;>
    simp [encodeChannelQuery, unmarshalChannelQuery, unmarshalStruct, channelQueryStep,
      strFieldOmit, asString, hp, List.foldlM, except_ok_bind, except_pure_eq, Except.map]

theorem asOpt_ChannelQuery (q : ChannelQuery) :
    asOpt unmarshalChannelQuery (encodeChannelQuery q) = .ok (some q) := by
  show (unmarshalChannelQuery (encodeChannelQuery q)).map some = .ok (some q)
  rw [unmarshal_encode_ChannelQuery]
  rfl

structure IBCQuery where
  PortID : Option PortIDQuery := none
  ListChannels : Option ListChannelsQuery := none
  Channel : Option ChannelQuery := none

def encodeIBCQuery (q : IBCQuery) : Json :=
  .obj (optField "port_id" encodePortIDQuery q.PortID ++
    optField "list_channels" encodeListChannelsQuery q.ListChannels ++
    optField "channel" encodeChannelQuery q.Channel)

def ibcQueryStep (acc : IBCQuery) (key : String) (v : Json) : Except String IBCQuery :=
  if key = "port_id" then
    (asOpt unmarshalPortIDQuery v).map (fun o => { acc with PortID := o })
  else if key = "list_channels" then
    (asOpt unmarshalListChannelsQuery v).map (fun o => { acc with ListChannels := o })
  else if key = "channel" then
    (asOpt unmarshalChannelQuery v).map (fun o => { acc with Channel := o })
  else .ok acc

def unmarshalIBCQuery : Json → Except String IBCQuery :=
  unmarshalStruct ibcQueryStep {}

theorem unmarshal_encode_IBCQuery (q : IBCQuery) :
    unmarshalIBCQuery (encodeIBCQuery q) = .ok q := by
  obtain ⟨p, l, c⟩ := q
  rcases p with _ | p <;> rcases l with _ | l <;> rcases c with _ | c <;>
    simp [encodeIBCQuery, unmarshalIBCQuery, unmarshalStruct, ibcQueryStep, optField,
      asOpt_PortIDQuery, asOpt_ListChannelsQuery, asOpt_ChannelQuery, List.foldlM,
      except_ok_bind, except_pure_eq, Except.map]

theorem asOpt_IBCQuery (q : IBCQuery) :
    asOpt unmarshalIBCQuery (encodeIBCQuery q) = .ok (some q) := by
  show (unmarshalIBCQuery (encodeIBCQuery q)).map some = .ok (some q)
  rw [unmarshal_encode_IBCQuery]
  rfl

/-! ## Staking queries (src/types/queries.go lines 210-263) -/

structure AllValidatorsQuery where
deriving DecidableEq

def encodeAllValidatorsQuery (_ : AllValidatorsQuery) : Json := .obj []

def allValidatorsQueryStep (acc : AllValidatorsQuery) (_ : String) (_ : Json) :
    Except String AllValidatorsQuery :=
  .ok acc

def unmarshalAllValidatorsQuery : Json → Except String AllValidatorsQuery :=
  unmarshalStruct allValidatorsQueryStep {}

theorem unmarshal_encode_AllValidatorsQuery (q : AllValidatorsQuery) :
    unmarshalAllValidatorsQuery (encodeAllValidatorsQuery q) = .ok q := rfl

theorem asOpt_AllValidatorsQuery (q : AllValidatorsQuery) :
    asOpt unmarshalAllValidatorsQuery (encodeAllValidatorsQuery q) = .ok (some q) := by
  show (unmarshalAllValidatorsQuery (encodeAllValidatorsQuery q)).map some = .ok (some q)
  rw [unmarshal_encode_AllValidatorsQuery]
  rfl

structure ValidatorQuery where
  Address : String := ""
deriving DecidableEq

def encodeValidatorQuery (q : ValidatorQuery) : Json :=
  .obj [("address", .str q.Address)]

def validatorQueryStep (acc : ValidatorQuery) (key : String) (v : Json) :
    Except String ValidatorQuery :=
  if key = "address" then (asString v acc.Address).map (fun s => { acc with Address := s })
  else .ok acc

def unmarshalValidatorQuery : Json → Except String ValidatorQuery :=
  unmarshalStruct validatorQueryStep {}

theorem unmarshal_encode_ValidatorQuery (q : ValidatorQuery) :
    unmarshalValidatorQuery (encodeValidatorQuery q) = .ok q := rfl

theorem asOpt_ValidatorQuery (q : ValidatorQuery) :
    asOpt unmarshalValidatorQuery (encodeValidatorQuery q) = .ok (some q) := by
  show (unmarshalValidatorQuery (encodeValidatorQuery q)).map some = .ok (some q)
  rw [unmarshal_encode_ValidatorQuery]
  rfl

structure AllDelegationsQuery where
  Delegator : String := ""
deriving DecidableEq

def encodeAllDelegationsQuery (q : AllDelegationsQuery) : Json :=
  .obj [("delegator", .str q.Delegator)]

def allDelegationsQueryStep (acc : AllDelegationsQuery) (key : String) (v : Json) :
    Except String AllDelegationsQuery :=
  if key = "delegator" then (asString v acc.Delegator).map (fun s => { acc with Delegator := s })
  else .ok acc

def unmarshalAllDelegationsQuery : Json → Except String AllDelegationsQuery :=
  unmarshalStruct allDelegationsQueryStep {}

theorem unmarshal_encode_AllDelegationsQuery (q : AllDelegationsQuery) :
    unmarshalAllDelegationsQuery (encodeAllDelegationsQuery q) = .ok q := rfl

theorem asOpt_AllDelegationsQuery (q : AllDelegationsQuery) :
    asOpt unmarshalAllDelegationsQuery (encodeAllDelegationsQuery q) = .ok (some q) := by
  show (unmarshalAllDelegationsQuery (encodeAllDelegationsQuery q)).map some = .ok (some q)
  rw [unmarshal_encode_AllDelegationsQuery]
  rfl

structure DelegationQuery where
  Delegator : String := ""
  Validator : String := ""
deriving DecidableEq

def encodeDelegationQuery (q : DelegationQuery) : Json :=
  .obj [("delegator", .str q.Delegator), ("validator", .str q.Validator)]

def delegationQueryStep (acc : DelegationQuery) (key : String) (v : Json) :
    Except String DelegationQuery :=
  if key = "delegator" then (asString v acc.Delegator).map (fun s => { acc with Delegator := s })
  else if key = "validator" then
    (asString v acc.Validator).map (fun s => { acc with Validator := s })
  else .ok acc

def unmarshalDelegationQuery : Json → Except String DelegationQuery :=
  unmarshalStruct delegationQueryStep {}

theorem unmarshal_encode_DelegationQuery (q : DelegationQuery) :
    unmarshalDelegationQuery (encodeDelegationQuery q) = .ok q := rfl

theorem asOpt_DelegationQuery (q : DelegationQuery) :
    asOpt unmarshalDelegationQuery (encodeDelegationQuery q) = .ok (some q) := by
  show (unmarshalDelegationQuery (encodeDelegationQuery q)).map some = .ok (some q)
  rw [unmarshal_encode_DelegationQuery]
  rfl

/-- Go `json.Unmarshal` into a `struct` with no fields (the pointee of
`BondedDenom` in `StakingQuery`): any object is accepted, everything else
but null is a type error. -/
def unmarshalEmptyObj : Json → Except String Unit
  | .obj _ => .ok ()
  | .null => .ok ()
  | _ => .error "json: cannot unmarshal value into Go struct"

structure StakingQuery where
  AllValidators : Option AllValidatorsQuery := none
  Validator : Option ValidatorQuery := none
  AllDelegations : Option AllDelegationsQuery := none
  Delegation : Option DelegationQuery := none
  BondedDenom : Option Unit := none

def encodeStakingQuery (q : StakingQuery) : Json :=
  .obj (optField "all_validators" encodeAllValidatorsQuery q.AllValidators ++
    optField "validator" encodeValidatorQuery q.Validator ++
    optField "all_delegations" encodeAllDelegationsQuery q.AllDelegations ++
    optField "delegation" encodeDelegationQuery q.Delegation ++
    optField "bonded_denom" (fun _ => Json.obj []) q.BondedDenom)

def stakingQueryStep (acc : StakingQuery) (key : String) (v : Json) :
    Except String StakingQuery :=
  if key = "all_validators" then
    (asOpt unmarshalAllValidatorsQuery v).map (fun o => { acc with AllValidators := o })
  else if key = "validator" then
    (asOpt unmarshalValidatorQuery v).map (fun o => { acc with Validator := o })
  else if key = "all_delegations" then
    (asOpt unmarshalAllDelegationsQuery v).map (fun o => { acc with AllDelegations := o })
  else if key = "delegation" then
    (asOpt unmarshalDelegationQuery v).map (fun o => { acc with Delegation := o })
  else if key = "bonded_denom" then
    (asOpt unmarshalEmptyObj v).map (fun o => { acc with BondedDenom := o })
  else .ok acc

def unmarshalStakingQuery : Json → Except String StakingQuery :=
  unmarshalStruct stakingQueryStep {}

theorem asOpt_EmptyObj : asOpt unmarshalEmptyObj (Json.obj []) = .ok (some ()) := rfl

theorem unmarshal_encode_StakingQuery (q : StakingQuery) :
    unmarshalStakingQuery (encodeStakingQuery q) = .ok q := by
  obtain ⟨av, v, ad, d, bd⟩ := q
  rcases av with _ | av <;> rcases v with _ | v <;> rcases ad with _ | ad <;>
    rcases d with _ | d <;> rcases bd with _ | bd <;>
    simp [encodeStakingQuery, unmarshalStakingQuery, unmarshalStruct, stakingQueryStep, optField,
      asOpt_AllValidatorsQuery, asOpt_ValidatorQuery, asOpt_AllDelegationsQuery,
      asOpt_DelegationQuery, asOpt_EmptyObj, List.foldlM, except_ok_bind, except_pure_eq,
      Except.map]

theorem asOpt_StakingQuery (q : StakingQuery) :
    asOpt unmarshalStakingQuery (encodeStakingQuery q) = .ok (some q) := by
  show (unmarshalStakingQuery (encodeStakingQuery q)).map some = .ok (some q)
  rw [unmarshal_encode_StakingQuery]
  rfl

/-! ## Distribution queries (src/types/queries.go lines 265-316) -/

structure DelegatorWithdrawAddressQuery where
  DelegatorAddress : String := ""
deriving DecidableEq

def encodeDelegatorWithdrawAddressQuery (q : DelegatorWithdrawAddressQuery) : Json :=
  .obj [("delegator_address", .str q.DelegatorAddress)]

def delegatorWithdrawAddressQueryStep (acc : DelegatorWithdrawAddressQuery) (key : String)
    (v : Json) : Except String DelegatorWithdrawAddressQuery :=
  if key = "delegator_address" then
    (asString v acc.DelegatorAddress).map (fun s => { acc with DelegatorAddress := s })
  else .ok acc

def unmarshalDelegatorWithdrawAddressQuery : Json → Except String DelegatorWithdrawAddressQuery :=
  unmarshalStruct delegatorWithdrawAddressQueryStep {}

theorem unmarshal_encode_DelegatorWithdrawAddressQuery (q : DelegatorWithdrawAddressQuery) :
    unmarshalDelegatorWithdrawAddressQuery (encodeDelegatorWithdrawAddressQuery q) = .ok q := rfl

theorem asOpt_DelegatorWithdrawAddressQuery (q : DelegatorWithdrawAddressQuery) :
    asOpt unmarshalDelegatorWithdrawAddressQuery (encodeDelegatorWithdrawAddressQuery q) =
      .ok (some q) := by
  show (unmarshalDelegatorWithdrawAddressQuery (encodeDelegatorWithdrawAddressQuery q)).map some =
    .ok (some q)
  rw [unmarshal_encode_DelegatorWithdrawAddressQuery]
  rfl

structure DelegationRewardsQuery where
  DelegatorAddress : String := ""
  ValidatorAddress : String := ""
deriving DecidableEq

def encodeDelegationRewardsQuery (q : DelegationRewardsQuery) : Json :=
  .obj [("delegator_address", .str q.DelegatorAddress),
    ("validator_address", .str q.ValidatorAddress)]

def delegationRewardsQueryStep (acc : DelegationRewardsQuery) (key : String) (v : Json) :
    Except String DelegationRewardsQuery :=
  if key = "delegator_address" then
    (asString v acc.DelegatorAddress).map (fun s => { acc with DelegatorAddress := s })
  else if key = "validator_address" then
    (asString v acc.ValidatorAddress).map (fun s => { acc with ValidatorAddress := s })
  else .ok acc

def unmarshalDelegationRewardsQuery : Json → Except String DelegationRewardsQuery :=
  unmarshalStruct delegationRewardsQueryStep {}

theorem unmarshal_encode_DelegationRewardsQuery (q : DelegationRewardsQuery) :
    unmarshalDelegationRewardsQuery (encodeDelegationRewardsQuery q) = .ok q := rfl

theorem asOpt_DelegationRewardsQuery (q : DelegationRewardsQuery) :
    asOpt unmarshalDelegationRewardsQuery (encodeDelegationRewardsQuery q) = .ok (some q) := by
  show (unmarshalDelegationRewardsQuery (encodeDelegationRewardsQuery q)).map some = .ok (some q)
  rw [unmarshal_encode_DelegationRewardsQuery]
  rfl

structure DelegationTotalRewardsQuery where
  DelegatorAddress : String := ""
deriving DecidableEq

def encodeDelegationTotalRewardsQuery (q : DelegationTotalRewardsQuery) : Json :=
  .obj [("delegator_address", .str q.DelegatorAddress)]

def delegationTotalRewardsQueryStep (acc : DelegationTotalRewardsQuery) (key : String)
    (v : Json) : Except String DelegationTotalRewardsQuery :=
  if key = "delegator_address" then
    (asString v acc.DelegatorAddress).map (fun s => { acc with DelegatorAddress := s })
  else .ok acc

def unmarshalDelegationTotalRewardsQuery : Json → Except String DelegationTotalRewardsQuery :=
  unmarshalStruct delegationTotalRewardsQueryStep {}

theorem unmarshal_encode_DelegationTotalRewardsQuery (q : DelegationTotalRewardsQuery) :
    unmarshalDelegationTotalRewardsQuery (encodeDelegationTotalRewardsQuery q) = .ok q := rfl

theorem asOpt_DelegationTotalRewardsQuery (q : DelegationTotalRewardsQuery) :
    asOpt unmarshalDelegationTotalRewardsQuery (encodeDelegationTotalRewardsQuery q) =
      .ok (some q) := by
  show (unmarshalDelegationTotalRewardsQuery (encodeDelegationTotalRewardsQuery q)).map some =
    .ok (some q)
  rw [unmarshal_encode_DelegationTotalRewardsQuery]
  rfl

structure DelegatorValidatorsQuery where
  DelegatorAddress : String := ""
deriving DecidableEq

def encodeDelegatorValidatorsQuery (q : DelegatorValidatorsQuery) : Json :=
  .obj [("delegator_address", .str q.DelegatorAddress)]

def delegatorValidatorsQueryStep (acc : DelegatorValidatorsQuery) (key : String) (v : Json) :
    Except String DelegatorValidatorsQuery :=
  if key = "delegator_address" then
    (asString v acc.DelegatorAddress).map (fun s => { acc with DelegatorAddress := s })
  else .ok acc

def unmarshalDelegatorValidatorsQuery : Json → Except String DelegatorValidatorsQuery :=
  unmarshalStruct delegatorValidatorsQueryStep {}

theorem unmarshal_encode_DelegatorValidatorsQuery (q : DelegatorValidatorsQuery) :
    unmarshalDelegatorValidatorsQuery (encodeDelegatorValidatorsQuery q) = .ok q := rfl

theorem asOpt_DelegatorValidatorsQuery (q : DelegatorValidatorsQuery) :
    asOpt unmarshalDelegatorValidatorsQuery (encodeDelegatorValidatorsQuery q) =
      .ok (some q) := by
  show (unmarshalDelegatorValidatorsQuery (encodeDelegatorValidatorsQuery q)).map some =
    .ok (some q)
  rw [unmarshal_encode_DelegatorValidatorsQuery]
  rfl

structure DistributionQuery where
  DelegatorWithdrawAddress : Option DelegatorWithdrawAddressQuery := none
  DelegationRewards : Option DelegationRewardsQuery := none
  DelegationTotalRewards : Option DelegationTotalRewardsQuery := none
  DelegatorValidators : Option DelegatorValidatorsQuery := none

def encodeDistributionQuery (q : DistributionQuery) : Json :=
  .obj (optField "delegator_withdraw_address" encodeDelegatorWithdrawAddressQuery
      q.DelegatorWithdrawAddress ++
    optField "delegation_rewards" encodeDelegationRewardsQuery q.DelegationRewards ++
    optField "delegation_total_rewards" encodeDelegationTotalRewardsQuery
      q.DelegationTotalRewards ++
    optField "delegator_validators" encodeDelegatorValidatorsQuery q.DelegatorValidators)

def distributionQueryStep (acc : DistributionQuery) (key : String) (v : Json) :
    Except String DistributionQuery :=
  if key = "delegator_withdraw_address" then
    (asOpt unmarshalDelegatorWithdrawAddressQuery v).map
      (fun o => { acc with DelegatorWithdrawAddress := o })
  else if key = "delegation_rewards" then
    (asOpt unmarshalDelegationRewardsQuery v).map (fun o => { acc with DelegationRewards := o })
  else if key = "delegation_total_rewards" then
    (asOpt unmarshalDelegationTotalRewardsQuery v).map
      (fun o => { acc with DelegationTotalRewards := o })
  else if key = "delegator_validators" then
    (asOpt unmarshalDelegatorValidatorsQuery v).map
      (fun o => { acc with DelegatorValidators := o })
  else .ok acc

def unmarshalDistributionQuery : Json → Except String DistributionQuery :=
  unmarshalStruct distributionQueryStep {}

theorem unmarshal_encode_DistributionQuery (q : DistributionQuery) :
    unmarshalDistributionQuery (encodeDistributionQuery q) = .ok q := by
  obtain ⟨wa, dr, dtr, dv⟩ := q
  rcases wa with _ | wa <;> rcases dr with _ | dr <;> rcases dtr with _ | dtr <;>
    rcases dv with _ | dv <;>
    simp [encodeDistributionQuery, unmarshalDistributionQuery, unmarshalStruct,
      distributionQueryStep, optField, asOpt_DelegatorWithdrawAddressQuery,
      asOpt_DelegationRewardsQuery, asOpt_DelegationTotalRewardsQuery,
      asOpt_DelegatorValidatorsQuery, List.foldlM, except_ok_bind, except_pure_eq, Except.map]

theorem asOpt_DistributionQuery (q : DistributionQuery) :
    asOpt unmarshalDistributionQuery (encodeDistributionQuery q) = .ok (some q) := by
  show (unmarshalDistributionQuery (encodeDistributionQuery q)).map some = .ok (some q)
  rw [unmarshal_encode_DistributionQuery]
  rfl

/-! ## Stargate, gRPC and Wasm queries (src/types/queries.go lines 335-399,
432-451) -/

theorem asU64_encode (u cur : U64) : asU64 (.num (u.val : Int)) cur = .ok u := by
  show asU64 (.num (.ofNat u.val)) cur = .ok u
  simp only [asU64]
  rw [dif_pos u.isLt]

theorem asU16_encode (u cur : U16) : asU16 (.num (u.val : Int)) cur = .ok u := by
  show asU16 (.num (.ofNat u.val)) cur = .ok u
  simp only [asU16]
  rw [dif_pos u.isLt]

/-- Go `json.Unmarshal` into a `[]byte` field applied to its own encoding. -/
theorem asBytes_encode (bs : Bytes) : asBytes (.str (base64Encode bs)) = .ok bs := by
  simp [asBytes, base64_roundtrip]

structure StargateQuery where
  Data : Bytes := []
  Path : String := ""
deriving DecidableEq

def encodeStargateQuery (q : StargateQuery) : Json :=
  .obj [("data", .str (base64Encode q.Data)), ("path", .str q.Path)]

def stargateQueryStep (acc : StargateQuery) (key : String) (v : Json) :
    Except String StargateQuery :=
  if key = "data" then (asBytes v).map (fun bs => { acc with Data := bs })
  else if key = "path" then (asString v acc.Path).map (fun s => { acc with Path := s })
  else .ok acc

def unmarshalStargateQuery : Json → Except String StargateQuery :=
  unmarshalStruct stargateQueryStep {}

theorem unmarshal_encode_StargateQuery (q : StargateQuery) :
    unmarshalStargateQuery (encodeStargateQuery q) = .ok q := by
  simp [encodeStargateQuery, unmarshalStargateQuery, unmarshalStruct, stargateQueryStep,
    asBytes_encode, asString, List.foldlM, except_ok_bind, except_pure_eq, Except.map]

theorem asOpt_StargateQuery (q : StargateQuery) :
    asOpt unmarshalStargateQuery (encodeStargateQuery q) = .ok (some q) := by
  show (unmarshalStargateQuery (encodeStargateQuery q)).map some = .ok (some q)
  rw [unmarshal_encode_StargateQuery]
  rfl

structure GrpcQuery where
  Data : Bytes := []
  Path : String := ""
deriving DecidableEq

def encodeGrpcQuery (q : GrpcQuery) : Json :=
  .obj [("data", .str (base64Encode q.Data)), ("path", .str q.Path)]

def grpcQueryStep (acc : GrpcQuery) (key : String) (v : Json) : Except String GrpcQuery :=
  if key = "data" then (asBytes v).map (fun bs => { acc with Data := bs })
  else if key = "path" then (asString v acc.Path).map (fun s => { acc with Path := s })
  else .ok acc

def unmarshalGrpcQuery : Json → Except String GrpcQuery :=
  unmarshalStruct grpcQueryStep {}

theorem unmarshal_encode_GrpcQuery (q : GrpcQuery) :
    unmarshalGrpcQuery (encodeGrpcQuery q) = .ok q := by
  simp [encodeGrpcQuery, unmarshalGrpcQuery, unmarshalStruct, grpcQueryStep,
    asBytes_encode, asString, List.foldlM, except_ok_bind, except_pure_eq, Except.map]

theorem asOpt_GrpcQuery (q : GrpcQuery) :
    asOpt unmarshalGrpcQuery (encodeGrpcQuery q) = .ok (some q) := by
  show (unmarshalGrpcQuery (encodeGrpcQuery q)).map some = .ok (some q)
  rw [unmarshal_encode_GrpcQuery]
  rfl

structure SmartQuery where
  ContractAddr : String := ""
  Msg : Bytes := []
deriving DecidableEq

def encodeSmartQuery (q : SmartQuery) : Json :=
  .obj [("contract_addr", .str q.ContractAddr), ("msg", .str (base64Encode q.Msg))]

def smartQueryStep (acc : SmartQuery) (key : String) (v : Json) : Except String SmartQuery :=
  if key = "contract_addr" then
    (asString v acc.ContractAddr).map (fun s => { acc with ContractAddr := s })
  else if key = "msg" then (asBytes v).map (fun bs => { acc with Msg := bs })
  else .ok acc

def unmarshalSmartQuery : Json → Except String SmartQuery :=
  unmarshalStruct smartQueryStep {}

theorem unmarshal_encode_SmartQuery (q : SmartQuery) :
    unmarshalSmartQuery (encodeSmartQuery q) = .ok q := by
  simp [encodeSmartQuery, unmarshalSmartQuery, unmarshalStruct, smartQueryStep,
    asBytes_encode, asString, List.foldlM, except_ok_bind, except_pure_eq, Except.map]

theorem asOpt_SmartQuery (q : SmartQuery) :
    asOpt unmarshalSmartQuery (encodeSmartQuery q) = .ok (some q) := by
  show (unmarshalSmartQuery (encodeSmartQuery q)).map some = .ok (some q)
  rw [unmarshal_encode_SmartQuery]
  rfl

structure RawQuery where
  ContractAddr : String := ""
  Key : Bytes := []
deriving DecidableEq

def encodeRawQuery (q : RawQuery) : Json :=
  .obj [("contract_addr", .str q.ContractAddr), ("key", .str (base64Encode q.Key))]

def rawQueryStep (acc : RawQuery) (key : String) (v : Json) : Except String RawQuery :=
  if key = "contract_addr" then
    (asString v acc.ContractAddr).map (fun s => { acc with ContractAddr := s })
  else if key = "key" then (asBytes v).map (fun bs => { acc with Key := bs })
  else .ok acc

def unmarshalRawQuery : Json → Except String RawQuery :=
  unmarshalStruct rawQueryStep {}

theorem unmarshal_encode_RawQuery (q : RawQuery) :
    unmarshalRawQuery (encodeRawQuery q) = .ok q := by
  simp [encodeRawQuery, unmarshalRawQuery, unmarshalStruct, rawQueryStep,
    asBytes_encode, asString, List.foldlM, except_ok_bind, except_pure_eq, Except.map]

theorem asOpt_RawQuery (q : RawQuery) :
    asOpt unmarshalRawQuery (encodeRawQuery q) = .ok (some q) := by
  show (unmarshalRawQuery (encodeRawQuery q)).map some = .ok (some q)
  rw [unmarshal_encode_RawQuery]
  rfl

structure RawRangeQuery where
  ContractAddr : String := ""
  Start : Bytes := []
  End : Bytes := []
  Limit : U16 := 0
  Order : String := ""
deriving DecidableEq

def encodeRawRangeQuery (q : RawRangeQuery) : Json :=
  .obj ([("contract_addr", .str q.ContractAddr)] ++
    bytesFieldOmit "start" q.Start ++ bytesFieldOmit "end" q.End ++
    [("limit", .num (q.Limit.val : Int)), ("order", .str q.Order)])

def rawRangeQueryStep (acc : RawRangeQuery) (key : String) (v : Json) :
    Except String RawRangeQuery :=
  if key = "contract_addr" then
    (asString v acc.ContractAddr).map (fun s => { acc with ContractAddr := s })
  else if key = "start" then (asBytes v).map (fun bs => { acc with Start := bs })
  else if key = "end" then (asBytes v).map (fun bs => { acc with End := bs })
  else if key = "limit" then (asU16 v acc.Limit).map (fun u => { acc with Limit := u })
  else if key = "order" then (asString v acc.Order).map (fun s => { acc with Order := s })
  else .ok acc

def unmarshalRawRangeQuery : Json → Except String RawRangeQuery :=
  unmarshalStruct rawRangeQueryStep {}

theorem unmarshal_encode_RawRangeQuery (q : RawRangeQuery) :
    unmarshalRawRangeQuery (encodeRawRangeQuery q) = .ok q := by
  obtain ⟨ca, s, e, l, o⟩ := q
  by_cases hs : s = [] <;> by_cases he : e = [] <;>
    simp [encodeRawRangeQuery, unmarshalRawRangeQuery, unmarshalStruct, rawRangeQueryStep,
      bytesFieldOmit, asBytes_encode, asU16_encode, asString, hs, he, List.foldlM,
      except_ok_bind, except_pure_eq, Except.map]

theorem asOpt_RawRangeQuery (q : RawRangeQuery) :
    asOpt unmarshalRawRangeQuery (encodeRawRangeQuery q) = .ok (some q) := by
  show (unmarshalRawRangeQuery (encodeRawRangeQuery q)).map some = .ok (some q)
  rw [unmarshal_encode_RawRangeQuery]
  rfl

structure ContractInfoQuery where
  ContractAddr : String := ""
deriving DecidableEq

def encodeContractInfoQuery (q : ContractInfoQuery) : Json :=
  .obj [("contract_addr", .str q.ContractAddr)]

def contractInfoQueryStep (acc : ContractInfoQuery) (key : String) (v : Json) :
    Except String ContractInfoQuery :=
  if key = "contract_addr" then
    (asString v acc.ContractAddr).map (fun s => { acc with ContractAddr := s })
  else .ok acc

def unmarshalContractInfoQuery : Json → Except String ContractInfoQuery :=
  unmarshalStruct contractInfoQueryStep {}

theorem unmarshal_encode_ContractInfoQuery (q : ContractInfoQuery) :
    unmarshalContractInfoQuery (encodeContractInfoQuery q) = .ok q := rfl

theorem asOpt_ContractInfoQuery (q : ContractInfoQuery) :
    asOpt unmarshalContractInfoQuery (encodeContractInfoQuery q) = .ok (some q) := by
  show (unmarshalContractInfoQuery (encodeContractInfoQuery q)).map some = .ok (some q)
  rw [unmarshal_encode_ContractInfoQuery]
  rfl

structure CodeInfoQuery where
  CodeID : U64 := 0
deriving DecidableEq

def encodeCodeInfoQuery (q : CodeInfoQuery) : Json :=
  .obj [("code_id", .num (q.CodeID.val : Int))]

def codeInfoQueryStep (acc : CodeInfoQuery) (key : String) (v : Json) :
    Except String CodeInfoQuery :=
  if key = "code_id" then (asU64 v acc.CodeID).map (fun u => { acc with CodeID := u })
  else .ok acc

def unmarshalCodeInfoQuery : Json → Except String CodeInfoQuery :=
  unmarshalStruct codeInfoQueryStep {}

theorem unmarshal_encode_CodeInfoQuery (q : CodeInfoQuery) :
    unmarshalCodeInfoQuery (encodeCodeInfoQuery q) = .ok q := by
  simp [encodeCodeInfoQuery, unmarshalCodeInfoQuery, unmarshalStruct, codeInfoQueryStep,
    asU64_encode, List.foldlM, except_ok_bind, except_pure_eq, Except.map]

theorem asOpt_CodeInfoQuery (q : CodeInfoQuery) :
    asOpt unmarshalCodeInfoQuery (encodeCodeInfoQuery q) = .ok (some q) := by
  show (unmarshalCodeInfoQuery (encodeCodeInfoQuery q)).map some = .ok (some q)
  rw [unmarshal_encode_CodeInfoQuery]
  rfl

structure WasmQuery where
  Smart : Option SmartQuery := none
  Raw : Option RawQuery := none
  ContractInfo : Option ContractInfoQuery := none
  CodeInfo : Option CodeInfoQuery := none
  RawRange : Option RawRangeQuery := none

def encodeWasmQuery (q : WasmQuery) : Json :=
  .obj (optField "smart" encodeSmartQuery q.Smart ++
    optField "raw" encodeRawQuery q.Raw ++
    optField "contract_info" encodeContractInfoQuery q.ContractInfo ++
    optField "code_info" encodeCodeInfoQuery q.CodeInfo ++
    optField "raw_range" encodeRawRangeQuery q.RawRange)

def wasmQueryStep (acc : WasmQuery) (key : String) (v : Json) : Except String WasmQuery :=
  if key = "smart" then (asOpt unmarshalSmartQuery v).map (fun o => { acc with Smart := o })
  else if key = "raw" then (asOpt unmarshalRawQuery v).map (fun o => { acc with Raw := o })
  else if key = "contract_info" then
    (asOpt unmarshalContractInfoQuery v).map (fun o => { acc with ContractInfo := o })
  else if key = "code_info" then
    (asOpt unmarshalCodeInfoQuery v).map (fun o => { acc with CodeInfo := o })
  else if key = "raw_range" then
    (asOpt unmarshalRawRangeQuery v).map (fun o => { acc with RawRange := o })
  else .ok acc

def unmarshalWasmQuery : Json → Except String WasmQuery :=
  unmarshalStruct wasmQueryStep {}

theorem unmarshal_encode_WasmQuery (q : WasmQuery) :
    unmarshalWasmQuery (encodeWasmQuery q) = .ok q := by
  obtain ⟨s, r, ci, co, rr⟩ := q
  rcases s with _ | s <;> rcases r with _ | r <;> rcases ci with _ | ci <;>
    rcases co with _ | co <;> rcases rr with _ | rr <;>
    simp [encodeWasmQuery, unmarshalWasmQuery, unmarshalStruct, wasmQueryStep, optField,
      asOpt_SmartQuery, asOpt_RawQuery, asOpt_ContractInfoQuery, asOpt_CodeInfoQuery,
      asOpt_RawRangeQuery, List.foldlM, except_ok_bind, except_pure_eq, Except.map]

theorem asOpt_WasmQuery (q : WasmQuery) :
    asOpt unmarshalWasmQuery (encodeWasmQuery q) = .ok (some q) := by
  show (unmarshalWasmQuery (encodeWasmQuery q)).map some = .ok (some q)
  rw [unmarshal_encode_WasmQuery]
  rfl

/-! ## QueryRequest (src/types/queries.go lines 101-112): a rust enum where
only (exactly) one of the fields should be set -/

structure QueryRequest where
  Bank : Option BankQuery := none
  Custom : Option Json := none
  IBC : Option IBCQuery := none
  Staking : Option StakingQuery := none
  Distribution : Option DistributionQuery := none
  Stargate : Option StargateQuery := none
  Grpc : Option GrpcQuery := none
  Wasm : Option WasmQuery := none

def encodeQueryRequest (q : QueryRequest) : Json :=
  .obj (optField "bank" encodeBankQuery q.Bank ++
    optField "custom" (fun j => j) q.Custom ++
    optField "ibc" encodeIBCQuery q.IBC ++
    optField "staking" encodeStakingQuery q.Staking ++
    optField "distribution" encodeDistributionQuery q.Distribution ++
    optField "stargate" encodeStargateQuery q.Stargate ++
    optField "grpc" encodeGrpcQuery q.Grpc ++
    optField "wasm" encodeWasmQuery q.Wasm)

/-- Decoding step for `QueryRequest`; `Custom` is a `json.RawMessage`, which
stores the raw JSON value of the field verbatim (even a JSON null). -/
def queryRequestStep (acc : QueryRequest) (key : String) (v : Json) :
    Except String QueryRequest :=
  if key = "bank" then (asOpt unmarshalBankQuery v).map (fun o => { acc with Bank := o })
  else if key = "custom" then .ok { acc with Custom := some v }
  else if key = "ibc" then (asOpt unmarshalIBCQuery v).map (fun o => { acc with IBC := o })
  else if key = "staking" then
    (asOpt unmarshalStakingQuery v).map (fun o => { acc with Staking := o })
  else if key = "distribution" then
    (asOpt unmarshalDistributionQuery v).map (fun o => { acc with Distribution := o })
  else if key = "stargate" then
    (asOpt unmarshalStargateQuery v).map (fun o => { acc with Stargate := o })
  else if key = "grpc" then (asOpt unmarshalGrpcQuery v).map (fun o => { acc with Grpc := o })
  else if key = "wasm" then (asOpt unmarshalWasmQuery v).map (fun o => { acc with Wasm := o })
  else .ok acc

def unmarshalQueryRequest : Json → Except String QueryRequest :=
  unmarshalStruct queryRequestStep {}

set_option maxHeartbeats 3200000 in
theorem unmarshal_encode_QueryRequest (q : QueryRequest) :
    unmarshalQueryRequest (encodeQueryRequest q) = .ok q := by
  obtain ⟨b, c, i, st, d, sg, g, w⟩ := q
  rcases b with _ | b <;> rcases c with _ | c <;> rcases i with _ | i <;> rcases st with _ | st <;>
    rcases d with _ | d <;> rcases sg with _ | sg <;> rcases g with _ | g <;> rcases w with _ | w <;>
    simp [encodeQueryRequest, unmarshalQueryRequest, unmarshalStruct, queryRequestStep, optField,
      asOpt_BankQuery, asOpt_IBCQuery, asOpt_StakingQuery, asOpt_DistributionQuery,
      asOpt_StargateQuery, asOpt_GrpcQuery, asOpt_WasmQuery, List.foldlM, except_ok_bind,
      except_pure_eq, Except.map]

/-! ## SystemError and the Go error model (the SystemError declarations live
outside src/types/queries.go; src shows the fields RustQuery constructs) -/

/-- Modelled from the spec: `InvalidRequest` is declared in the repository's
missing system-error file; src/types/queries.go lines 63-66 construct it with
fields `Err` (the decode error message) and `Request` (the raw request
bytes). The raw bytes are modelled as the undecoded wire value. -/
structure InvalidRequest where
  Err : String := ""
  Request : Json := .null

/-- Modelled from the spec (§3): `SystemError` is a tagged union with, at
minimum, variants `InvalidRequest`, `UnsupportedRequest` (kind),
`NoSuchContract` (address) and `Unknown`, exactly one populated per
instance; its Go declaration is outside src/, so the variants are modelled
as optional branches just like every union of this protocol. -/
structure SystemError where
  InvalidRequest : Option InvalidRequest := none
  UnsupportedRequest : Option String := none
  NoSuchContract : Option String := none
  Unknown : Option Unit := none

/-- Modelled from the spec (§4.3, §7): a Go `error` value returned by a
responder either wraps a `SystemError` or is a plain business-logic error;
`Error` is Go's `error.Error()` message. -/
inductive GoError where
  | system (e : SystemError) (msg : String)
  | plain (msg : String)

def GoError.Error : GoError → String
  | .system _ msg => msg
  | .plain msg => msg

/-- Modelled from the spec (§7 tier 1 vs tier 2): `ToSystemError` (declared
in the missing system-error file) classifies an error, returning the
`SystemError` it wraps, or nil for business-logic errors. -/
def ToSystemError : GoError → Option SystemError
  | .system e _ => some e
  | .plain _ => none

/-! ## QuerierResult, ToQuerierResult, Querier, RustQuery
(src/types/queries.go lines 30-99) -/

/-- This is a 2-level result (src/types/queries.go lines 74-78). -/
structure QuerierResult where
  Ok : Option QueryResult := none
  Err : Option SystemError := none

def ToQuerierResult (response : Bytes) (err : Option GoError) : QuerierResult :=
  match err with
  | none => { Ok := some { Ok := response } }
  | some e =>
      match ToSystemError e with
      | some syserr => { Err := some syserr }
      | none => { Ok := some { Err := e.Error } }

/-- The `Querier` interface (src/types/queries.go lines 38-54): `query` takes
a request and a gas limit and returns response bytes together with a Go
error (either may be set); `GasConsumed` reports cumulative gas. -/
structure Querier where
  query : QueryRequest → Nat → Bytes × Option GoError
  GasConsumed : Nat

/-- `RustQuery` (src/types/queries.go lines 56-72), a thin wrapper around the
Go API; the raw request bytes are modelled as the wire value they parse to
(an input that is not a JSON object fails to decode, just as malformed bytes
do). -/
def RustQuery (querier : Querier) (binRequest : Json) (gasLimit : Nat) : QuerierResult :=
  match unmarshalQueryRequest binRequest with
  | .error e =>
      { Err := some { InvalidRequest := some { Err := e, Request := binRequest } } }
  | .ok request =>
      let r := querier.query request gasLimit
      ToQuerierResult r.1 r.2

/-- Modelled from the spec (§3, §6): the wire form of `SystemError`, a sparse
object with one key per populated variant. -/
def encodeSystemError (e : SystemError) : Json :=
  .obj (optField "invalid_request"
      (fun ir => .obj [("error", .str ir.Err), ("request", ir.Request)]) e.InvalidRequest ++
    optField "unsupported_request" (fun k => .obj [("kind", .str k)]) e.UnsupportedRequest ++
    optField "no_such_contract" (fun a => .obj [("addr", .str a)]) e.NoSuchContract ++
    optField "unknown" (fun _ => Json.obj []) e.Unknown)

/-- Wire form of `QuerierResult` (struct tags `ok,omitempty` and
`error,omitempty`, src/types/queries.go lines 75-78). -/
def encodeQuerierResult (r : QuerierResult) : Json :=
  .obj (optField "ok" marshalQueryResultJson r.Ok ++ optField "error" encodeSystemError r.Err)

/-! ## Response payload types (src/types/queries.go lines 126-333, 401-459).
Payload value types declared outside src/types/queries.go (`Coin`, `DecCoin`,
`DenomMetadata`, `IBCChannel`) are modelled as opaque structs whose wire
object's fields pass through the codec unchanged. -/

theorem mapM_loop_encode {α : Type} (enc : α → Json) (dec : Json → Except String α)
    (h : ∀ a, dec (enc a) = .ok a) :
    ∀ (xs : List α) (acc : List α),
      List.mapM.loop dec (xs.map enc) acc = .ok (acc.reverse ++ xs) := by
  intro xs
  induction xs with
  | nil => intro acc; simp [List.mapM.loop, except_pure_eq]
  | cons x rest ih =>
      intro acc
      simp [List.mapM.loop, h, ih, except_ok_bind]

theorem mapM_encode {α : Type} (enc : α → Json) (dec : Json → Except String α)
    (h : ∀ a, dec (enc a) = .ok a) :
    ∀ xs : List α, (xs.map enc).mapM dec = .ok xs := by
  intro xs
  simpa [List.mapM] using mapM_loop_encode enc dec h xs []

/-- Modelled from the spec: `Coin` is a primitive domain value declared
outside src/types/queries.go; opaque wire object. -/
structure Coin where
  raw : List (String × Json) := []

def encodeCoin (c : Coin) : Json := .obj c.raw

def unmarshalCoin : Json → Except String Coin
  | .obj fs => .ok ⟨fs⟩
  | .null => .ok {}
  | _ => .error "json: cannot unmarshal value into Go struct"

theorem unmarshal_encode_Coin (c : Coin) : unmarshalCoin (encodeCoin c) = .ok c := rfl

/-- Modelled from the spec: `DecCoin` is a primitive domain value declared
outside src/types/queries.go; opaque wire object. -/
structure DecCoin where
  raw : List (String × Json) := []

def encodeDecCoin (c : DecCoin) : Json := .obj c.raw

def unmarshalDecCoin : Json → Except String DecCoin
  | .obj fs => .ok ⟨fs⟩
  | .null => .ok {}
  | _ => .error "json: cannot unmarshal value into Go struct"

theorem unmarshal_encode_DecCoin (c : DecCoin) : unmarshalDecCoin (encodeDecCoin c) = .ok c := rfl

/-- Modelled from the spec: `DenomMetadata` is a metadata record declared
outside src/types/queries.go; opaque wire object. -/
structure DenomMetadata where
  raw : List (String × Json) := []

def encodeDenomMetadata (c : DenomMetadata) : Json := .obj c.raw

def unmarshalDenomMetadata : Json → Except String DenomMetadata
  | .obj fs => .ok ⟨fs⟩
  | .null => .ok {}
  | _ => .error "json: cannot unmarshal value into Go struct"

theorem unmarshal_encode_DenomMetadata (c : DenomMetadata) :
    unmarshalDenomMetadata (encodeDenomMetadata c) = .ok c := rfl

/-- Modelled from the spec: `IBCChannel` is a channel descriptor declared
outside src/types/queries.go; opaque wire object. -/
structure IBCChannel where
  raw : List (String × Json) := []

def encodeIBCChannel (c : IBCChannel) : Json := .obj c.raw

def unmarshalIBCChannel : Json → Except String IBCChannel
  | .obj fs => .ok ⟨fs⟩
  | .null => .ok {}
  | _ => .error "json: cannot unmarshal value into Go struct"

theorem unmarshal_encode_IBCChannel (c : IBCChannel) :
    unmarshalIBCChannel (encodeIBCChannel c) = .ok c := rfl

structure SupplyResponse where
  Amount : Coin := {}

def encodeSupplyResponse (r : SupplyResponse) : Json :=
  .obj [("amount", encodeCoin r.Amount)]

def supplyResponseStep (acc : SupplyResponse) (key : String) (v : Json) :
    Except String SupplyResponse :=
  if key = "amount" then (unmarshalCoin v).map (fun c => { acc with Amount := c })
  else .ok acc

def unmarshalSupplyResponse : Json → Except String SupplyResponse :=
  unmarshalStruct supplyResponseStep {}

theorem unmarshal_encode_SupplyResponse (r : SupplyResponse) :
    unmarshalSupplyResponse (encodeSupplyResponse r) = .ok r := by
  obtain ⟨⟨fs⟩⟩ := r
  rfl

structure BalanceResponse where
  Amount : Coin := {}

def encodeBalanceResponse (r : BalanceResponse) : Json :=
  .obj [("amount", encodeCoin r.Amount)]

def balanceResponseStep (acc : BalanceResponse) (key : String) (v : Json) :
    Except String BalanceResponse :=
  if key = "amount" then (unmarshalCoin v).map (fun c => { acc with Amount := c })
  else .ok acc

def unmarshalBalanceResponse : Json → Except String BalanceResponse :=
  unmarshalStruct balanceResponseStep {}

theorem unmarshal_encode_BalanceResponse (r : BalanceResponse) :
    unmarshalBalanceResponse (encodeBalanceResponse r) = .ok r := by
  obtain ⟨⟨fs⟩⟩ := r
  rfl

structure AllBalancesResponse where
  Amount : List Coin := []

def encodeAllBalancesResponse (r : AllBalancesResponse) : Json :=
  .obj [("amount", .arr (r.Amount.map encodeCoin))]

def allBalancesResponseStep (acc : AllBalancesResponse) (key : String) (v : Json) :
    Except String AllBalancesResponse :=
  if key = "amount" then (asList unmarshalCoin v).map (fun cs => { acc with Amount := cs })
  else .ok acc

def unmarshalAllBalancesResponse : Json → Except String AllBalancesResponse :=
  unmarshalStruct allBalancesResponseStep {}

theorem unmarshal_encode_AllBalancesResponse (r : AllBalancesResponse) :
    unmarshalAllBalancesResponse (encodeAllBalancesResponse r) = .ok r := by
  obtain ⟨cs⟩ := r
  simp [encodeAllBalancesResponse, unmarshalAllBalancesResponse, unmarshalStruct,
    allBalancesResponseStep, asList,
    mapM_loop_encode encodeCoin unmarshalCoin unmarshal_encode_Coin,
    List.foldlM, except_ok_bind, except_pure_eq, Except.map]

structure DenomMetadataResponse where
  Metadata : DenomMetadata := {}

def encodeDenomMetadataResponse (r : DenomMetadataResponse) : Json :=
  .obj [("metadata", encodeDenomMetadata r.Metadata)]

def denomMetadataResponseStep (acc : DenomMetadataResponse) (key : String) (v : Json) :
    Except String DenomMetadataResponse :=
  if key = "metadata" then
    (unmarshalDenomMetadata v).map (fun m => { acc with Metadata := m })
  else .ok acc

def unmarshalDenomMetadataResponse : Json → Except String DenomMetadataResponse :=
  unmarshalStruct denomMetadataResponseStep {}

theorem unmarshal_encode_DenomMetadataResponse (r : DenomMetadataResponse) :
    unmarshalDenomMetadataResponse (encodeDenomMetadataResponse r) = .ok r := by
  obtain ⟨⟨fs⟩⟩ := r
  rfl

structure AllDenomMetadataResponse where
  Metadata : List DenomMetadata := []
  NextKey : Bytes := []

def encodeAllDenomMetadataResponse (r : AllDenomMetadataResponse) : Json :=
  .obj ([("metadata", .arr (r.Metadata.map encodeDenomMetadata))] ++
    bytesFieldOmit "next_key" r.NextKey)

def allDenomMetadataResponseStep (acc : AllDenomMetadataResponse) (key : String) (v : Json) :
    Except String AllDenomMetadataResponse :=
  if key = "metadata" then
    (asList unmarshalDenomMetadata v).map (fun ms => { acc with Metadata := ms })
  else if key = "next_key" then (asBytes v).map (fun bs => { acc with NextKey := bs })
  else .ok acc

def unmarshalAllDenomMetadataResponse : Json → Except String AllDenomMetadataResponse :=
  unmarshalStruct allDenomMetadataResponseStep {}

theorem unmarshal_encode_AllDenomMetadataResponse (r : AllDenomMetadataResponse) :
    unmarshalAllDenomMetadataResponse (encodeAllDenomMetadataResponse r) = .ok r := by
  obtain ⟨ms, nk⟩ := r
  by_cases hk : nk = [] <;>
    simp [encodeAllDenomMetadataResponse, unmarshalAllDenomMetadataResponse, unmarshalStruct,
      allDenomMetadataResponseStep, bytesFieldOmit, asList, asBytes_encode, hk,
      mapM_loop_encode encodeDenomMetadata unmarshalDenomMetadata unmarshal_encode_DenomMetadata,
      List.foldlM, except_ok_bind, except_pure_eq, Except.map]

def asStringElem : Json → Except String String
  | .str s => .ok s
  | .null => .ok ""
  | _ => .error "json: cannot unmarshal value into field of type string"

structure PortIDResponse where
  PortID : String := ""
deriving DecidableEq

def encodePortIDResponse (r : PortIDResponse) : Json :=
  .obj [("port_id", .str r.PortID)]

def portIDResponseStep (acc : PortIDResponse) (key : String) (v : Json) :
    Except String PortIDResponse :=
  if key = "port_id" then (asString v acc.PortID).map (fun s => { acc with PortID := s })
  else .ok acc

def unmarshalPortIDResponse : Json → Except String PortIDResponse :=
  unmarshalStruct portIDResponseStep {}

theorem unmarshal_encode_PortIDResponse (r : PortIDResponse) :
    unmarshalPortIDResponse (encodePortIDResponse r) = .ok r := rfl

structure ListChannelsResponse where
  Channels : List IBCChannel := []

def encodeListChannelsResponse (r : ListChannelsResponse) : Json :=
  .obj [("channels", .arr (r.Channels.map encodeIBCChannel))]

def listChannelsResponseStep (acc : ListChannelsResponse) (key : String) (v : Json) :
    Except String ListChannelsResponse :=
  if key = "channels" then (asList unmarshalIBCChannel v).map (fun cs => { acc with Channels := cs })
  else .ok acc

def unmarshalListChannelsResponse : Json → Except String ListChannelsResponse :=
  unmarshalStruct listChannelsResponseStep {}

theorem unmarshal_encode_ListChannelsResponse (r : ListChannelsResponse) :
    unmarshalListChannelsResponse (encodeListChannelsResponse r) = .ok r := by
  obtain ⟨cs⟩ := r
  simp [encodeListChannelsResponse, unmarshalListChannelsResponse, unmarshalStruct,
    listChannelsResponseStep, asList,
    mapM_loop_encode encodeIBCChannel unmarshalIBCChannel unmarshal_encode_IBCChannel,
    List.foldlM, except_ok_bind, except_pure_eq, Except.map]

structure ChannelResponse where
  Channel : Option IBCChannel := none

def encodeChannelResponse (r : ChannelResponse) : Json :=
  .obj (optField "channel" encodeIBCChannel r.Channel)

def channelResponseStep (acc : ChannelResponse) (key : String) (v : Json) :
    Except String ChannelResponse :=
  if key = "channel" then (asOpt unmarshalIBCChannel v).map (fun o => { acc with Channel := o })
  else .ok acc

def unmarshalChannelResponse : Json → Except String ChannelResponse :=
  unmarshalStruct channelResponseStep {}

theorem unmarshal_encode_ChannelResponse (r : ChannelResponse) :
    unmarshalChannelResponse (encodeChannelResponse r) = .ok r := by
  obtain ⟨c⟩ := r
  rcases c with _ | ⟨fs⟩ <;> rfl

structure Validator where
  Address : String := ""
  Commission : String := ""
  MaxCommission : String := ""
  MaxChangeRate : String := ""
deriving DecidableEq

def encodeValidator (v : Validator) : Json :=
  .obj [("address", .str v.Address), ("commission", .str v.Commission),
    ("max_commission", .str v.MaxCommission), ("max_change_rate", .str v.MaxChangeRate)]

def validatorStep (acc : Validator) (key : String) (v : Json) : Except String Validator :=
  if key = "address" then (asString v acc.Address).map (fun s => { acc with Address := s })
  else if key = "commission" then
    (asString v acc.Commission).map (fun s => { acc with Commission := s })
  else if key = "max_commission" then
    (asString v acc.MaxCommission).map (fun s => { acc with MaxCommission := s })
  else if key = "max_change_rate" then
    (asString v acc.MaxChangeRate).map (fun s => { acc with MaxChangeRate := s })
  else .ok acc

def unmarshalValidator : Json → Except String Validator :=
  unmarshalStruct validatorStep {}

theorem unmarshal_encode_Validator (v : Validator) :
    unmarshalValidator (encodeValidator v) = .ok v := rfl

structure AllValidatorsResponse where
  Validators : List Validator := []
deriving DecidableEq

def encodeAllValidatorsResponse (r : AllValidatorsResponse) : Json :=
  .obj [("validators", .arr (r.Validators.map encodeValidator))]

def allValidatorsResponseStep (acc : AllValidatorsResponse) (key : String) (v : Json) :
    Except String AllValidatorsResponse :=
  if key = "validators" then
    (asList unmarshalValidator v).map (fun vs => { acc with Validators := vs })
  else .ok acc

def unmarshalAllValidatorsResponse : Json → Except String AllValidatorsResponse :=
  unmarshalStruct allValidatorsResponseStep {}

theorem unmarshal_encode_AllValidatorsResponse (r : AllValidatorsResponse) :
    unmarshalAllValidatorsResponse (encodeAllValidatorsResponse r) = .ok r := by
  obtain ⟨vs⟩ := r
  simp [encodeAllValidatorsResponse, unmarshalAllValidatorsResponse, unmarshalStruct,
    allValidatorsResponseStep, asList,
    mapM_loop_encode encodeValidator unmarshalValidator unmarshal_encode_Validator,
    List.foldlM, except_ok_bind, except_pure_eq, Except.map]

/-- `ValidatorResponse` (src/types/queries.go lines 230-233): the `Validator`
pointer field carries NO `omitempty`, so it serializes to `null` when unset
(the Go source comments that this matches Rust's Option::None
serialization). -/
structure ValidatorResponse where
  Validator : Option Validator := none
deriving DecidableEq

def encodeValidatorResponse (r : ValidatorResponse) : Json :=
  .obj [("validator", match r.Validator with
    | some v => encodeValidator v
    | none => .null)]

def validatorResponseStep (acc : ValidatorResponse) (key : String) (v : Json) :
    Except String ValidatorResponse :=
  if key = "validator" then (asOpt unmarshalValidator v).map (fun o => { acc with Validator := o })
  else .ok acc

def unmarshalValidatorResponse : Json → Except String ValidatorResponse :=
  unmarshalStruct validatorResponseStep {}

theorem unmarshal_encode_ValidatorResponse (r : ValidatorResponse) :
    unmarshalValidatorResponse (encodeValidatorResponse r) = .ok r := by
  obtain ⟨v⟩ := r
  rcases v with _ | v <;> rfl

structure Delegation where
  Delegator : String := ""
  Validator : String := ""
  Amount : Coin := {}

def encodeDelegation (d : Delegation) : Json :=
  .obj [("delegator", .str d.Delegator), ("validator", .str d.Validator),
    ("amount", encodeCoin d.Amount)]

def delegationStep (acc : Delegation) (key : String) (v : Json) : Except String Delegation :=
  if key = "delegator" then (asString v acc.Delegator).map (fun s => { acc with Delegator := s })
  else if key = "validator" then
    (asString v acc.Validator).map (fun s => { acc with Validator := s })
  else if key = "amount" then (unmarshalCoin v).map (fun c => { acc with Amount := c })
  else .ok acc

def unmarshalDelegation : Json → Except String Delegation :=
  unmarshalStruct delegationStep {}

theorem unmarshal_encode_Delegation (d : Delegation) :
    unmarshalDelegation (encodeDelegation d) = .ok d := by
  obtain ⟨ds, vs, ⟨fs⟩⟩ := d
  rfl

structure AllDelegationsResponse where
  Delegations : List Delegation := []

def encodeAllDelegationsResponse (r : AllDelegationsResponse) : Json :=
  .obj [("delegations", .arr (r.Delegations.map encodeDelegation))]

def allDelegationsResponseStep (acc : AllDelegationsResponse) (key : String) (v : Json) :
    Except String AllDelegationsResponse :=
  if key = "delegations" then
    (asList unmarshalDelegation v).map (fun ds => { acc with Delegations := ds })
  else .ok acc

def unmarshalAllDelegationsResponse : Json → Except String AllDelegationsResponse :=
  unmarshalStruct allDelegationsResponseStep {}

theorem unmarshal_encode_AllDelegationsResponse (r : AllDelegationsResponse) :
    unmarshalAllDelegationsResponse (encodeAllDelegationsResponse r) = .ok r := by
  obtain ⟨ds⟩ := r
  simp [encodeAllDelegationsResponse, unmarshalAllDelegationsResponse, unmarshalStruct,
    allDelegationsResponseStep, asList,
    mapM_loop_encode encodeDelegation unmarshalDelegation unmarshal_encode_Delegation,
    List.foldlM, except_ok_bind, except_pure_eq, Except.map]

structure FullDelegation where
  Delegator : String := ""
  Validator : String := ""
  Amount : Coin := {}
  AccumulatedRewards : List Coin := []
  CanRedelegate : Coin := {}

def encodeFullDelegation (d : FullDelegation) : Json :=
  .obj [("delegator", .str d.Delegator), ("validator", .str d.Validator),
    ("amount", encodeCoin d.Amount),
    ("accumulated_rewards", .arr (d.AccumulatedRewards.map encodeCoin)),
    ("can_redelegate", encodeCoin d.CanRedelegate)]

def fullDelegationStep (acc : FullDelegation) (key : String) (v : Json) :
    Except String FullDelegation :=
  if key = "delegator" then (asString v acc.Delegator).map (fun s => { acc with Delegator := s })
  else if key = "validator" then
    (asString v acc.Validator).map (fun s => { acc with Validator := s })
  else if key = "amount" then (unmarshalCoin v).map (fun c => { acc with Amount := c })
  else if key = "accumulated_rewards" then
    (asList unmarshalCoin v).map (fun cs => { acc with AccumulatedRewards := cs })
  else if key = "can_redelegate" then
    (unmarshalCoin v).map (fun c => { acc with CanRedelegate := c })
  else .ok acc

def unmarshalFullDelegation : Json → Except String FullDelegation :=
  unmarshalStruct fullDelegationStep {}

theorem unmarshal_encode_FullDelegation (d : FullDelegation) :
    unmarshalFullDelegation (encodeFullDelegation d) = .ok d := by
  obtain ⟨ds, vs, ⟨a⟩, ar, ⟨c⟩⟩ := d
  simp [encodeFullDelegation, unmarshalFullDelegation, unmarshalStruct, fullDelegationStep,
    asString, unmarshalCoin, encodeCoin, asList,
    mapM_loop_encode encodeCoin unmarshalCoin unmarshal_encode_Coin,
    List.foldlM, except_ok_bind, except_pure_eq, Except.map]

structure DelegationResponse where
  Delegation : Option FullDelegation := none

def encodeDelegationResponse (r : DelegationResponse) : Json :=
  .obj (optField "delegation" encodeFullDelegation r.Delegation)

def delegationResponseStep (acc : DelegationResponse) (key : String) (v : Json) :
    Except String DelegationResponse :=
  if key = "delegation" then
    (asOpt unmarshalFullDelegation v).map (fun o => { acc with Delegation := o })
  else .ok acc

def unmarshalDelegationResponse : Json → Except String DelegationResponse :=
  unmarshalStruct delegationResponseStep {}

theorem asOpt_FullDelegation (d : FullDelegation) :
    asOpt unmarshalFullDelegation (encodeFullDelegation d) = .ok (some d) := by
  show (unmarshalFullDelegation (encodeFullDelegation d)).map some = .ok (some d)
  rw [unmarshal_encode_FullDelegation]
  rfl

theorem unmarshal_encode_DelegationResponse (r : DelegationResponse) :
    unmarshalDelegationResponse (encodeDelegationResponse r) = .ok r := by
  obtain ⟨d⟩ := r
  rcases d with _ | d <;>
    simp [encodeDelegationResponse, unmarshalDelegationResponse, unmarshalStruct,
      delegationResponseStep, optField, asOpt_FullDelegation, List.foldlM, except_ok_bind,
      except_pure_eq, Except.map]

structure BondedDenomResponse where
  Denom : String := ""
deriving DecidableEq

def encodeBondedDenomResponse (r : BondedDenomResponse) : Json :=
  .obj [("denom", .str r.Denom)]

def bondedDenomResponseStep (acc : BondedDenomResponse) (key : String) (v : Json) :
    Except String BondedDenomResponse :=
  if key = "denom" then (asString v acc.Denom).map (fun s => { acc with Denom := s })
  else .ok acc

def unmarshalBondedDenomResponse : Json → Except String BondedDenomResponse :=
  unmarshalStruct bondedDenomResponseStep {}

theorem unmarshal_encode_BondedDenomResponse (r : BondedDenomResponse) :
    unmarshalBondedDenomResponse (encodeBondedDenomResponse r) = .ok r := rfl

structure DelegatorWithdrawAddressResponse where
  WithdrawAddress : String := ""
deriving DecidableEq

def encodeDelegatorWithdrawAddressResponse (r : DelegatorWithdrawAddressResponse) : Json :=
  .obj [("withdraw_address", .str r.WithdrawAddress)]

def delegatorWithdrawAddressResponseStep (acc : DelegatorWithdrawAddressResponse) (key : String)
    (v : Json) : Except String DelegatorWithdrawAddressResponse :=
  if key = "withdraw_address" then
    (asString v acc.WithdrawAddress).map (fun s => { acc with WithdrawAddress := s })
  else .ok acc

def unmarshalDelegatorWithdrawAddressResponse :
    Json → Except String DelegatorWithdrawAddressResponse :=
  unmarshalStruct delegatorWithdrawAddressResponseStep {}

theorem unmarshal_encode_DelegatorWithdrawAddressResponse (r : DelegatorWithdrawAddressResponse) :
    unmarshalDelegatorWithdrawAddressResponse (encodeDelegatorWithdrawAddressResponse r) =
      .ok r := rfl

structure DelegationRewardsResponse where
  Rewards : List DecCoin := []

def encodeDelegationRewardsResponse (r : DelegationRewardsResponse) : Json :=
  .obj [("rewards", .arr (r.Rewards.map encodeDecCoin))]

def delegationRewardsResponseStep (acc : DelegationRewardsResponse) (key : String) (v : Json) :
    Except String DelegationRewardsResponse :=
  if key = "rewards" then (asList unmarshalDecCoin v).map (fun cs => { acc with Rewards := cs })
  else .ok acc

def unmarshalDelegationRewardsResponse : Json → Except String DelegationRewardsResponse :=
  unmarshalStruct delegationRewardsResponseStep {}

theorem unmarshal_encode_DelegationRewardsResponse (r : DelegationRewardsResponse) :
    unmarshalDelegationRewardsResponse (encodeDelegationRewardsResponse r) = .ok r := by
  obtain ⟨cs⟩ := r
  simp [encodeDelegationRewardsResponse, unmarshalDelegationRewardsResponse, unmarshalStruct,
    delegationRewardsResponseStep, asList,
    mapM_loop_encode encodeDecCoin unmarshalDecCoin unmarshal_encode_DecCoin,
    List.foldlM, except_ok_bind, except_pure_eq, Except.map]

structure DelegatorReward where
  Reward : List DecCoin := []
  ValidatorAddress : String := ""

def encodeDelegatorReward (r : DelegatorReward) : Json :=
  .obj [("reward", .arr (r.Reward.map encodeDecCoin)),
    ("validator_address", .str r.ValidatorAddress)]

def delegatorRewardStep (acc : DelegatorReward) (key : String) (v : Json) :
    Except String DelegatorReward :=
  if key = "reward" then (asList unmarshalDecCoin v).map (fun cs => { acc with Reward := cs })
  else if key = "validator_address" then
    (asString v acc.ValidatorAddress).map (fun s => { acc with ValidatorAddress := s })
  else .ok acc

def unmarshalDelegatorReward : Json → Except String DelegatorReward :=
  unmarshalStruct delegatorRewardStep {}

theorem unmarshal_encode_DelegatorReward (r : DelegatorReward) :
    unmarshalDelegatorReward (encodeDelegatorReward r) = .ok r := by
  obtain ⟨cs, va⟩ := r
  simp [encodeDelegatorReward, unmarshalDelegatorReward, unmarshalStruct, delegatorRewardStep,
    asString, asList, mapM_loop_encode encodeDecCoin unmarshalDecCoin unmarshal_encode_DecCoin,
    List.foldlM, except_ok_bind, except_pure_eq, Except.map]

structure DelegationTotalRewardsResponse where
  Rewards : List DelegatorReward := []
  Total : List DecCoin := []

def encodeDelegationTotalRewardsResponse (r : DelegationTotalRewardsResponse) : Json :=
  .obj [("rewards", .arr (r.Rewards.map encodeDelegatorReward)),
    ("total", .arr (r.Total.map encodeDecCoin))]

def delegationTotalRewardsResponseStep (acc : DelegationTotalRewardsResponse) (key : String)
    (v : Json) : Except String DelegationTotalRewardsResponse :=
  if key = "rewards" then
    (asList unmarshalDelegatorReward v).map (fun rs => { acc with Rewards := rs })
  else if key = "total" then (asList unmarshalDecCoin v).map (fun cs => { acc with Total := cs })
  else .ok acc

def unmarshalDelegationTotalRewardsResponse :
    Json → Except String DelegationTotalRewardsResponse :=
  unmarshalStruct delegationTotalRewardsResponseStep {}

theorem unmarshal_encode_DelegationTotalRewardsResponse (r : DelegationTotalRewardsResponse) :
    unmarshalDelegationTotalRewardsResponse (encodeDelegationTotalRewardsResponse r) = .ok r := by
  obtain ⟨rs, ts⟩ := r
  simp [encodeDelegationTotalRewardsResponse, unmarshalDelegationTotalRewardsResponse,
    unmarshalStruct, delegationTotalRewardsResponseStep, asList,
    mapM_loop_encode encodeDelegatorReward unmarshalDelegatorReward unmarshal_encode_DelegatorReward,
    mapM_loop_encode encodeDecCoin unmarshalDecCoin unmarshal_encode_DecCoin,
    List.foldlM, except_ok_bind, except_pure_eq, Except.map]

structure DelegatorValidatorsResponse where
  Validators : List String := []
deriving DecidableEq

def encodeDelegatorValidatorsResponse (r : DelegatorValidatorsResponse) : Json :=
  .obj [("validators", .arr (r.Validators.map Json.str))]

def delegatorValidatorsResponseStep (acc : DelegatorValidatorsResponse) (key : String)
    (v : Json) : Except String DelegatorValidatorsResponse :=
  if key = "validators" then
    (asList asStringElem v).map (fun vs => { acc with Validators := vs })
  else .ok acc

def unmarshalDelegatorValidatorsResponse : Json → Except String DelegatorValidatorsResponse :=
  unmarshalStruct delegatorValidatorsResponseStep {}

theorem unmarshal_encode_DelegatorValidatorsResponse (r : DelegatorValidatorsResponse) :
    unmarshalDelegatorValidatorsResponse (encodeDelegatorValidatorsResponse r) = .ok r := by
  obtain ⟨vs⟩ := r
  simp [encodeDelegatorValidatorsResponse, unmarshalDelegatorValidatorsResponse, unmarshalStruct,
    delegatorValidatorsResponseStep, asList,
    mapM_loop_encode Json.str asStringElem (fun s => rfl),
    List.foldlM, except_ok_bind, except_pure_eq, Except.map]

structure ContractInfoResponse where
  CodeID : U64 := 0
  Creator : String := ""
  Admin : String := ""
  Pinned : Bool := false
  IBCPort : String := ""
  IBC2Port : String := ""
deriving DecidableEq

def encodeContractInfoResponse (r : ContractInfoResponse) : Json :=
  .obj ([("code_id", .num (r.CodeID.val : Int)), ("creator", .str r.Creator)] ++
    strFieldOmit "admin" r.Admin ++ [("pinned", .bool r.Pinned)] ++
    strFieldOmit "ibc_port" r.IBCPort ++ strFieldOmit "ibc2_port" r.IBC2Port)

def contractInfoResponseStep (acc : ContractInfoResponse) (key : String) (v : Json) :
    Except String ContractInfoResponse :=
  if key = "code_id" then (asU64 v acc.CodeID).map (fun u => { acc with CodeID := u })
  else if key = "creator" then (asString v acc.Creator).map (fun s => { acc with Creator := s })
  else if key = "admin" then (asString v acc.Admin).map (fun s => { acc with Admin := s })
  else if key = "pinned" then (asBool v acc.Pinned).map (fun b => { acc with Pinned := b })
  else if key = "ibc_port" then (asString v acc.IBCPort).map (fun s => { acc with IBCPort := s })
  else if key = "ibc2_port" then
    (asString v acc.IBC2Port).map (fun s => { acc with IBC2Port := s })
  else .ok acc

def unmarshalContractInfoResponse : Json → Except String ContractInfoResponse :=
  unmarshalStruct contractInfoResponseStep {}

theorem unmarshal_encode_ContractInfoResponse (r : ContractInfoResponse) :
    unmarshalContractInfoResponse (encodeContractInfoResponse r) = .ok r := by
  obtain ⟨ci, cr, ad, pi, ip, ip2⟩ := r
  by_cases ha : ad = "" <;> by_cases hi : ip = "" <;> by_cases hi2 : ip2 = "" <;>
    simp [encodeContractInfoResponse, unmarshalContractInfoResponse, unmarshalStruct,
      contractInfoResponseStep, strFieldOmit, asString, asBool, asU64_encode, ha, hi, hi2,
      List.foldlM, except_ok_bind, except_pure_eq, Except.map]

/-- Modelled from the spec: `Checksum` is declared outside
src/types/queries.go; the source comments it must always be a 32 byte value,
and the spec (§6) has binary payloads use the protocol's byte-sequence
encoding, so it is modelled as a byte sequence on the wire. -/
def Checksum := Bytes

structure CodeInfoResponse where
  CodeID : U64 := 0
  Creator : String := ""
  Checksum : Checksum := ([] : Bytes)

def encodeCodeInfoResponse (r : CodeInfoResponse) : Json :=
  .obj [("code_id", .num (r.CodeID.val : Int)), ("creator", .str r.Creator),
    ("checksum", .str (base64Encode r.Checksum))]

def codeInfoResponseStep (acc : CodeInfoResponse) (key : String) (v : Json) :
    Except String CodeInfoResponse :=
  if key = "code_id" then (asU64 v acc.CodeID).map (fun u => { acc with CodeID := u })
  else if key = "creator" then (asString v acc.Creator).map (fun s => { acc with Creator := s })
  else if key = "checksum" then (asBytes v).map (fun bs => { acc with Checksum := bs })
  else .ok acc

def unmarshalCodeInfoResponse : Json → Except String CodeInfoResponse :=
  unmarshalStruct codeInfoResponseStep {}

theorem unmarshal_encode_CodeInfoResponse (r : CodeInfoResponse) :
    unmarshalCodeInfoResponse (encodeCodeInfoResponse r) = .ok r := by
  simp [encodeCodeInfoResponse, unmarshalCodeInfoResponse, unmarshalStruct, codeInfoResponseStep,
    asString, asBytes_encode, asU64_encode, List.foldlM, except_ok_bind, except_pure_eq,
    Except.map]

/-! ## RawRangeEntry and RawRangeResponse (src/types/queries.go lines
401-430) -/

structure RawRangeEntry where
  Key : Bytes := []
  Value : Bytes := []
deriving DecidableEq

/-- Wire form of a Go `[][]byte` value. -/
def encodeByteSlices (bss : List Bytes) : Json :=
  .arr (bss.map (fun bs => .str (base64Encode bs)))

/-- `RawRangeEntry.MarshalJSON` (lines 413-416): marshal as `[][]byte` with
two elements to match cosmwasm-std's RawRangeEntry. -/
def marshalRawRangeEntry (r : RawRangeEntry) : Json :=
  encodeByteSlices [r.Key, r.Value]

/-- `RawRangeEntry.UnmarshalJSON` (lines 418-430): unmarshal as `[][]byte`,
then require exactly two elements. -/
def unmarshalRawRangeEntry (data : Json) : Except String RawRangeEntry := do
  let arr ← asList asBytes data
  match arr with
  | [k, v] => .ok { Key := k, Value := v }
  | other =>
      .error ("invalid RawRange entry: expected array of length 2, got " ++ toString other.length)

theorem unmarshal_marshal_RawRangeEntry (r : RawRangeEntry) :
    unmarshalRawRangeEntry (marshalRawRangeEntry r) = .ok r := by
  obtain ⟨k, v⟩ := r
  simp [marshalRawRangeEntry, encodeByteSlices, unmarshalRawRangeEntry, asList,
    List.mapM, List.mapM.loop, asBytes_encode, except_ok_bind, except_pure_eq]

structure RawRangeResponse where
  Data : List RawRangeEntry := []
  NextKey : Bytes := []
deriving DecidableEq

/-- Wire form of `RawRangeResponse` (fields `data` and `next_key`, neither
tagged `omitempty`); with nil and empty byte slices identified, the encoder
emits the empty-string byte form for an absent `next_key`. -/
def encodeRawRangeResponse (r : RawRangeResponse) : Json :=
  .obj [("data", .arr (r.Data.map marshalRawRangeEntry)),
    ("next_key", .str (base64Encode r.NextKey))]

def rawRangeResponseStep (acc : RawRangeResponse) (key : String) (v : Json) :
    Except String RawRangeResponse :=
  if key = "data" then
    (asList unmarshalRawRangeEntry v).map (fun ds => { acc with Data := ds })
  else if key = "next_key" then (asBytes v).map (fun bs => { acc with NextKey := bs })
  else .ok acc

def unmarshalRawRangeResponse : Json → Except String RawRangeResponse :=
  unmarshalStruct rawRangeResponseStep {}

theorem unmarshal_encode_RawRangeResponse (r : RawRangeResponse) :
    unmarshalRawRangeResponse (encodeRawRangeResponse r) = .ok r := by
  obtain ⟨ds, nk⟩ := r
  simp [encodeRawRangeResponse, unmarshalRawRangeResponse, unmarshalStruct, rawRangeResponseStep,
    asList, asBytes_encode,
    mapM_loop_encode marshalRawRangeEntry unmarshalRawRangeEntry unmarshal_marshal_RawRangeEntry,
    List.foldlM, except_ok_bind, except_pure_eq, Except.map]

/-! ## The range scan behind RawRangeQuery (not part of this repository;
modelled from the spec) -/

/-- Lexicographic strict order on byte strings. -/
def lexLt : Bytes → Bytes → Bool
  | [], [] => false
  | [], _ :: _ => true
  | _ :: _, [] => false
  | a :: as, b :: bs =>
      if a < b then true else if b < a then false else lexLt as bs

theorem lexLt_trans : ∀ a b c : Bytes, lexLt a b = true → lexLt b c = true → lexLt a c = true := by
  intro a
  induction a with
  | nil =>
      intro b c hab hbc
      cases b with
      | nil => simp [lexLt] at hab
      | cons y ys =>
          cases c with
          | nil => simp [lexLt] at hbc
          | cons z zs => simp [lexLt]
  | cons x xs ih =>
      intro b c hab hbc
      cases b with
      | nil => simp [lexLt] at hab
      | cons y ys =>
          cases c with
          | nil => simp [lexLt] at hbc
          | cons z zs =>
              simp only [lexLt] at hab hbc ⊢
              rcases lt_trichotomy x y with hxy | hxy | hxy
              · rcases lt_trichotomy y z with hyz | hyz | hyz
                · simp [lt_trans hxy hyz]
                · subst hyz
                  simp [hxy]
                · rw [if_neg (lt_asymm hyz), if_pos hyz] at hbc
                  exact absurd hbc (by simp)
              · subst hxy
                rw [if_neg (lt_irrefl x), if_neg (lt_irrefl x)] at hab
                rcases lt_trichotomy x z with hxz | hxz | hxz
                · simp [hxz]
                · subst hxz
                  rw [if_neg (lt_irrefl x), if_neg (lt_irrefl x)] at hbc ⊢
                  exact ih ys zs hab hbc
                · rw [if_neg (lt_asymm hxz), if_pos hxz] at hbc
                  exact absurd hbc (by simp)
              · rw [if_neg (lt_asymm hxy), if_pos hxy] at hab
                exact absurd hab (by simp)

theorem lexLt_connex : ∀ a b : Bytes, lexLt a b = false → lexLt b a = false → a = b := by
  intro a
  induction a with
  | nil =>
      intro b hab hba
      cases b with
      | nil => rfl
      | cons y ys => simp [lexLt] at hab
  | cons x xs ih =>
      intro b hab hba
      cases b with
      | nil => simp [lexLt] at hba
      | cons y ys =>
          simp only [lexLt] at hab hba
          rcases lt_trichotomy x y with hxy | hxy | hxy
          · rw [if_pos hxy] at hab
            exact absurd hab (by simp)
          · subst hxy
            rw [if_neg (lt_irrefl x), if_neg (lt_irrefl x)] at hab hba
            rw [ih ys hab hba]
          · rw [if_pos hxy] at hba
            exact absurd hba (by simp)

def insertBy {α : Type} (le : α → α → Bool) (x : α) : List α → List α
  | [] => [x]
  | y :: ys => if le x y then x :: y :: ys else y :: insertBy le x ys

def sortBy {α : Type} (le : α → α → Bool) : List α → List α
  | [] => []
  | x :: xs => insertBy le x (sortBy le xs)

/-- Modelled from the spec (§4.4) and the field docs of `RawRangeQuery`
(src/types/queries.go lines 384-399): whether a key falls within the
query's bounds — `start` inclusive, `end` exclusive, an empty bound being
open-ended, the comparison lexicographic no matter the order. -/
def inRawRange (q : RawRangeQuery) (k : Bytes) : Bool :=
  (decide (q.Start = []) || !(lexLt k q.Start)) && (decide (q.End = []) || lexLt k q.End)

/-- Modelled from the spec (§4.4): the host-side scan answering a
`RawRangeQuery` over a fixed key/value store (that scan is not part of this
repository). Matching entries are enumerated in the requested order, at
most `limit` of them are returned, and `next_key` is the first unreturned
key — absent (empty) when the page covers every matching entry. -/
def rawRangeScan (store : List (Bytes × Bytes)) (q : RawRangeQuery) : RawRangeResponse :=
  let matching := store.filter (fun kv => inRawRange q kv.1)
  let sorted := if q.Order = "descending" then
      sortBy (fun a b => lexLt b.1 a.1) matching
    else
      sortBy (fun a b => lexLt a.1 b.1) matching
  let page := sorted.take q.Limit.val
  { Data := page.map (fun kv => { Key := kv.1, Value := kv.2 }),
    NextKey := if q.Limit.val < sorted.length then (sorted.getD q.Limit.val ([], [])).1 else [] }

theorem rawRangeScan_empty (store : List (Bytes × Bytes)) (q : RawRangeQuery)
    (hs : q.Start ≠ []) (he : q.End ≠ []) (hlt : lexLt q.Start q.End = false) :
    rawRangeScan store q = { Data := [], NextKey := [] } := by
  have hmatch : store.filter (fun kv => inRawRange q kv.1) = [] := by
    rw [List.filter_eq_nil_iff]
    intro kv _
    simp only [inRawRange, Bool.and_eq_true, Bool.or_eq_true, Bool.not_eq_true',
      decide_eq_true_eq]
    rintro ⟨h1, h2⟩
    have hsk : lexLt kv.1 q.Start = false := by
      rcases h1 with h1 | h1
      · exact absurd h1 hs
      · exact h1
    have hke : lexLt kv.1 q.End = true := by
      rcases h2 with h2 | h2
      · exact absurd h2 he
      · exact h2
    rcases Bool.eq_false_or_eq_true (lexLt q.Start kv.1) with hks | hks
    · have := lexLt_trans q.Start kv.1 q.End hks hke
      rw [hlt] at this
      exact absurd this (by simp)
    · have heq := lexLt_connex kv.1 q.Start hsk hks
      rw [heq, hlt] at hke
      exact absurd hke (by simp)
  simp [rawRangeScan, hmatch, sortBy]

/-! ## Wire-key characterisations (which keys a sparse object carries) -/

theorem map_fst_optField {α : Type} (t : String) (e : α → Json) (o : Option α) :
    (optField t e o).map (fun kv => kv.1) = if o.isSome then [t] else [] := by
  rcases o <;> rfl

theorem map_fst_strFieldOmit (t s : String) :
    (strFieldOmit t s).map (fun kv => kv.1) = if s = "" then [] else [t] := by
  by_cases h : s = "" <;> simp [strFieldOmit, h]

theorem map_fst_bytesFieldOmit (t : String) (bs : Bytes) :
    (bytesFieldOmit t bs).map (fun kv => kv.1) = if bs = [] then [] else [t] := by
  by_cases h : bs = [] <;> simp [bytesFieldOmit, h]

theorem mem_ite_singleton (a t : String) (c : Prop) [Decidable c] :
    (a ∈ (if c then [t] else [])) ↔ c ∧ a = t := by
  by_cases h : c <;> simp [h]

theorem objKeys_encodeQueryRequest (q : QueryRequest) :
    (encodeQueryRequest q).objKeys =
      (if q.Bank.isSome then ["bank"] else []) ++
      (if q.Custom.isSome then ["custom"] else []) ++
      (if q.IBC.isSome then ["ibc"] else []) ++
      (if q.Staking.isSome then ["staking"] else []) ++
      (if q.Distribution.isSome then ["distribution"] else []) ++
      (if q.Stargate.isSome then ["stargate"] else []) ++
      (if q.Grpc.isSome then ["grpc"] else []) ++
      (if q.Wasm.isSome then ["wasm"] else []) := by
  simp [encodeQueryRequest, Json.objKeys, map_fst_optField]

theorem objKeys_encodeBankQuery (q : BankQuery) :
    (encodeBankQuery q).objKeys =
      (if q.Supply.isSome then ["supply"] else []) ++
      (if q.Balance.isSome then ["balance"] else []) ++
      (if q.AllBalances.isSome then ["all_balances"] else []) ++
      (if q.DenomMetadata.isSome then ["denom_metadata"] else []) ++
      (if q.AllDenomMetadata.isSome then ["all_denom_metadata"] else []) := by
  simp [encodeBankQuery, Json.objKeys, map_fst_optField]

theorem objKeys_encodeIBCQuery (q : IBCQuery) :
    (encodeIBCQuery q).objKeys =
      (if q.PortID.isSome then ["port_id"] else []) ++
      (if q.ListChannels.isSome then ["list_channels"] else []) ++
      (if q.Channel.isSome then ["channel"] else []) := by
  simp [encodeIBCQuery, Json.objKeys, map_fst_optField]

theorem objKeys_encodeStakingQuery (q : StakingQuery) :
    (encodeStakingQuery q).objKeys =
      (if q.AllValidators.isSome then ["all_validators"] else []) ++
      (if q.Validator.isSome then ["validator"] else []) ++
      (if q.AllDelegations.isSome then ["all_delegations"] else []) ++
      (if q.Delegation.isSome then ["delegation"] else []) ++
      (if q.BondedDenom.isSome then ["bonded_denom"] else []) := by
  simp [encodeStakingQuery, Json.objKeys, map_fst_optField]

theorem objKeys_encodeDistributionQuery (q : DistributionQuery) :
    (encodeDistributionQuery q).objKeys =
      (if q.DelegatorWithdrawAddress.isSome then ["delegator_withdraw_address"] else []) ++
      (if q.DelegationRewards.isSome then ["delegation_rewards"] else []) ++
      (if q.DelegationTotalRewards.isSome then ["delegation_total_rewards"] else []) ++
      (if q.DelegatorValidators.isSome then ["delegator_validators"] else []) := by
  simp [encodeDistributionQuery, Json.objKeys, map_fst_optField]

theorem objKeys_encodeWasmQuery (q : WasmQuery) :
    (encodeWasmQuery q).objKeys =
      (if q.Smart.isSome then ["smart"] else []) ++
      (if q.Raw.isSome then ["raw"] else []) ++
      (if q.ContractInfo.isSome then ["contract_info"] else []) ++
      (if q.CodeInfo.isSome then ["code_info"] else []) ++
      (if q.RawRange.isSome then ["raw_range"] else []) := by
  simp [encodeWasmQuery, Json.objKeys, map_fst_optField]

theorem objKeys_encodeQuerierResult (r : QuerierResult) :
    (encodeQuerierResult r).objKeys =
      (if r.Ok.isSome then ["ok"] else []) ++ (if r.Err.isSome then ["error"] else []) := by
  simp [encodeQuerierResult, Json.objKeys, map_fst_optField]

theorem objKeys_encodeRawRangeQuery (q : RawRangeQuery) :
    (encodeRawRangeQuery q).objKeys =
      ["contract_addr"] ++ (if q.Start = [] then [] else ["start"]) ++
      (if q.End = [] then [] else ["end"]) ++ ["limit", "order"] := by
  simp [encodeRawRangeQuery, Json.objKeys, map_fst_bytesFieldOmit]

theorem objKeys_encodeContractInfoResponse (r : ContractInfoResponse) :
    (encodeContractInfoResponse r).objKeys =
      ["code_id", "creator"] ++ (if r.Admin = "" then [] else ["admin"]) ++ ["pinned"] ++
      (if r.IBCPort = "" then [] else ["ibc_port"]) ++
      (if r.IBC2Port = "" then [] else ["ibc2_port"]) := by
  simp [encodeContractInfoResponse, Json.objKeys, map_fst_strFieldOmit]

theorem objKeys_encodeChannelResponse (r : ChannelResponse) :
    (encodeChannelResponse r).objKeys = if r.Channel.isSome then ["channel"] else [] := by
  simp [encodeChannelResponse, Json.objKeys, map_fst_optField]

theorem objKeys_encodeValidatorResponse (r : ValidatorResponse) :
    (encodeValidatorResponse r).objKeys = ["validator"] := by
  rcases r with ⟨_ | v⟩ <;> rfl

theorem objKeys_encodeRawRangeResponse (r : RawRangeResponse) :
    (encodeRawRangeResponse r).objKeys = ["data", "next_key"] := rfl

theorem toQuerierResult_exactly_one (bz : Bytes) (err : Option GoError) :
    ((ToQuerierResult bz err).Ok.isSome = true ∧ (ToQuerierResult bz err).Err = none) ∨
    ((ToQuerierResult bz err).Ok = none ∧ (ToQuerierResult bz err).Err.isSome = true) := by
  rcases err with _ | e
  · left
    exact ⟨rfl, rfl⟩
  · rcases he : ToSystemError e with _ | s
    · left
      simp [ToQuerierResult, he]
    · right
      simp [ToQuerierResult, he]

/-- A querier whose responder returns empty bytes and no error; used to
instantiate dispatcher theorems at concrete inputs. -/
def sampleQuerier : Querier :=
  { query := fun _ _ => ([], none), GasConsumed := 0 }

/-! ## Claims -/

/-- C1: encoding a `QueryResult` whose Ok bytes and Err string are both empty
produces exactly the bytes of the literal degenerate form (and `QueryResult
with ok set to the empty byte string` is that same value, nil and empty byte
slices being identified); decoding that exact byte form — the object with a
single `ok` key holding the empty string — yields the empty-success value,
not an error. -/
theorem c1_degenerate_success :
    marshalQueryResultBytes { Ok := [], Err := "" } = "\x7b\"ok\":\"\"\x7d" ∧
    unmarshalQueryResult (Json.obj [("ok", Json.str "")]) = .ok { Ok := [], Err := "" } :=
  ⟨rfl, rfl⟩

/-- C2 counterexample: encoding the `QueryResult` with Ok bytes `[1]` AND
error string "boom" — a representable Go value — produces a wire object with
BOTH branches populated, so encoding does not always produce at most one
populated branch. -/
theorem c2_counterexample :
    (marshalQueryResultJson { Ok := [1], Err := "boom" }).objKeys = ["ok", "error"] := rfl

set_option maxHeartbeats 3200000 in
/-- C2 (amended): for every union type of the protocol, encoding a value
with AT MOST ONE populated branch (which callers must guarantee; the encoder
does not arbitrate) produces a wire object with at most one populated
branch. -/
theorem c2_union_encode_single_branch :
    (∀ q : QueryResult, [decide (q.Ok ≠ []), decide (q.Err ≠ "")].count true ≤ 1 →
      (marshalQueryResultJson q).objKeys.length ≤ 1) ∧
    (∀ r : QuerierResult, [r.Ok.isSome, r.Err.isSome].count true ≤ 1 →
      (encodeQuerierResult r).objKeys.length ≤ 1) ∧
    (∀ q : QueryRequest,
      [q.Bank.isSome, q.Custom.isSome, q.IBC.isSome, q.Staking.isSome, q.Distribution.isSome,
        q.Stargate.isSome, q.Grpc.isSome, q.Wasm.isSome].count true ≤ 1 →
      (encodeQueryRequest q).objKeys.length ≤ 1) ∧
    (∀ q : BankQuery,
      [q.Supply.isSome, q.Balance.isSome, q.AllBalances.isSome, q.DenomMetadata.isSome,
        q.AllDenomMetadata.isSome].count true ≤ 1 →
      (encodeBankQuery q).objKeys.length ≤ 1) ∧
    (∀ q : IBCQuery, [q.PortID.isSome, q.ListChannels.isSome, q.Channel.isSome].count true ≤ 1 →
      (encodeIBCQuery q).objKeys.length ≤ 1) ∧
    (∀ q : StakingQuery,
      [q.AllValidators.isSome, q.Validator.isSome, q.AllDelegations.isSome, q.Delegation.isSome,
        q.BondedDenom.isSome].count true ≤ 1 →
      (encodeStakingQuery q).objKeys.length ≤ 1) ∧
    (∀ q : DistributionQuery,
      [q.DelegatorWithdrawAddress.isSome, q.DelegationRewards.isSome,
        q.DelegationTotalRewards.isSome, q.DelegatorValidators.isSome].count true ≤ 1 →
      (encodeDistributionQuery q).objKeys.length ≤ 1) ∧
    (∀ q : WasmQuery,
      [q.Smart.isSome, q.Raw.isSome, q.ContractInfo.isSome, q.CodeInfo.isSome,
        q.RawRange.isSome].count true ≤ 1 →
      (encodeWasmQuery q).objKeys.length ≤ 1) := by
  refine ⟨?_, ?_, ?_, ?_, ?_, ?_, ?_, ?_⟩
  · intro q h
    obtain ⟨ok, err⟩ := q
    by_cases hok : ok = [] <;> by_cases herr : err = "" <;>
      simp_all [marshalQueryResultJson, marshalQueryResultImpl, Json.objKeys, bytesFieldOmit,
        strFieldOmit, string_length_eq_zero, List.length_eq_zero]
  · intro r h
    obtain ⟨o, e⟩ := r
    rcases o <;> rcases e <;> simp_all [encodeQuerierResult, Json.objKeys, optField]
  · intro q h
    obtain ⟨b, c, i, st, d, sg, g, w⟩ := q
    rcases b <;> rcases c <;> rcases i <;> rcases st <;> rcases d <;> rcases sg <;> rcases g <;>
      rcases w <;> simp_all [objKeys_encodeQueryRequest]
  · intro q h
    obtain ⟨s, b, ab, dm, adm⟩ := q
    rcases s <;> rcases b <;> rcases ab <;> rcases dm <;> rcases adm <;>
      simp_all [objKeys_encodeBankQuery]
  · intro q h
    obtain ⟨p, l, c⟩ := q
    rcases p <;> rcases l <;> rcases c <;> simp_all [objKeys_encodeIBCQuery]
  · intro q h
    obtain ⟨av, v, ad, d, bd⟩ := q
    rcases av <;> rcases v <;> rcases ad <;> rcases d <;> rcases bd <;>
      simp_all [objKeys_encodeStakingQuery]
  · intro q h
    obtain ⟨wa, dr, dtr, dv⟩ := q
    rcases wa <;> rcases dr <;> rcases dtr <;> rcases dv <;>
      simp_all [objKeys_encodeDistributionQuery]
  · intro q h
    obtain ⟨s, r, ci, co, rr⟩ := q
    rcases s <;> rcases r <;> rcases ci <;> rcases co <;> rcases rr <;>
      simp_all [objKeys_encodeWasmQuery]

theorem c2_union_encode_single_branch_witness :
    (marshalQueryResultJson { Ok := [1], Err := "" }).objKeys.length ≤ 1 ∧
    (encodeQuerierResult { Ok := some { Ok := [1], Err := "" }, Err := none }).objKeys.length ≤ 1 ∧
    (encodeQueryRequest { Bank := some { Supply := some { Denom := "u" } } }).objKeys.length ≤ 1 ∧
    (encodeBankQuery { Supply := some { Denom := "u" } }).objKeys.length ≤ 1 ∧
    (encodeIBCQuery { Channel := some { ChannelID := "ch" } }).objKeys.length ≤ 1 ∧
    (encodeStakingQuery { BondedDenom := some () }).objKeys.length ≤ 1 ∧
    (encodeDistributionQuery {}).objKeys.length ≤ 1 ∧
    (encodeWasmQuery { Raw := some { ContractAddr := "c", Key := [1] } }).objKeys.length ≤ 1 :=
  ⟨c2_union_encode_single_branch.1 _ (by decide),
   c2_union_encode_single_branch.2.1 _ (by decide),
   c2_union_encode_single_branch.2.2.1 _ (by decide),
   c2_union_encode_single_branch.2.2.2.1 _ (by decide),
   c2_union_encode_single_branch.2.2.2.2.1 _ (by decide),
   c2_union_encode_single_branch.2.2.2.2.2.1 _ (by decide),
   c2_union_encode_single_branch.2.2.2.2.2.2.1 _ (by decide),
   c2_union_encode_single_branch.2.2.2.2.2.2.2 _ (by decide)⟩

/-- C3 counterexample: a wire value with both the `bank` and `wasm` branches
populated decodes successfully — it is neither rejected nor resolved to one
branch — into a `QueryRequest` with BOTH branches populated. -/
theorem c3_counterexample :
    unmarshalQueryRequest (Json.obj
      [("bank", Json.obj [("balance",
          Json.obj [("address", Json.str "acct"), ("denom", Json.str "utoken")])]),
       ("wasm", Json.obj [("smart",
          Json.obj [("contract_addr", Json.str "c1"), ("msg", Json.str "")])])]) =
      .ok { Bank := some { Balance := some { Address := "acct", Denom := "utoken" } },
            Wasm := some { Smart := some { ContractAddr := "c1", Msg := [] } } } := rfl

/-- C3 (amended): decoding enforces no one-of-N invariant; it is
deterministic and populates every branch present in the input, so a wire
object with two populated branches (here `bank` and `wasm`, with arbitrary
contents) decodes without error to a value with those same two branches
populated. -/
theorem c3_decode_populates_every_branch (b : BankQuery) (w : WasmQuery) :
    unmarshalQueryRequest (Json.obj [("bank", encodeBankQuery b), ("wasm", encodeWasmQuery w)]) =
      .ok { Bank := some b, Wasm := some w } := by
  simp [unmarshalQueryRequest, unmarshalStruct, queryRequestStep, asOpt_BankQuery, asOpt_WasmQuery,
    List.foldlM, except_ok_bind, except_pure_eq, Except.map]

/-- C4: when the input fails to decode as a `QueryRequest`, `RustQuery`
returns the `InvalidRequest` system error carrying the decode error message
and echoing the original input exactly; and this is the only path through
which the input reaches the result — on decode success the result is
`ToQuerierResult` of the querier's answer alone, so any two inputs decoding
to the same request yield identical results. -/
theorem c4_invalid_request_echo (querier : Querier) (j : Json) (gasLimit : Nat) :
    (∀ e, unmarshalQueryRequest j = .error e →
      RustQuery querier j gasLimit =
        { Ok := none,
          Err := some
            { InvalidRequest := some { Err := e, Request := j },
              UnsupportedRequest := none, NoSuchContract := none, Unknown := none } }) ∧
    (∀ req, unmarshalQueryRequest j = .ok req →
      RustQuery querier j gasLimit =
        ToQuerierResult (querier.query req gasLimit).1 (querier.query req gasLimit).2) ∧
    (∀ req j2, unmarshalQueryRequest j = .ok req → unmarshalQueryRequest j2 = .ok req →
      RustQuery querier j gasLimit = RustQuery querier j2 gasLimit) := by
  refine ⟨?_, ?_, ?_⟩
  · intro e he
    simp [RustQuery, he]
  · intro req hr
    simp [RustQuery, hr]
  · intro req j2 h1 h2
    simp [RustQuery, h1, h2]

theorem c4_invalid_request_echo_witness :
    RustQuery sampleQuerier (Json.num 1) 5 =
      { Ok := none,
        Err := some
          { InvalidRequest := some
              { Err := "json: cannot unmarshal value into Go struct", Request := Json.num 1 },
            UnsupportedRequest := none, NoSuchContract := none, Unknown := none } } ∧
    RustQuery sampleQuerier (Json.obj []) 5 =
      ToQuerierResult (sampleQuerier.query {} 5).1 (sampleQuerier.query {} 5).2 ∧
    RustQuery sampleQuerier (Json.obj []) 5 = RustQuery sampleQuerier Json.null 5 :=
  ⟨(c4_invalid_request_echo sampleQuerier (Json.num 1) 5).1 _ rfl,
   (c4_invalid_request_echo sampleQuerier (Json.obj []) 5).2.1 {} rfl,
   (c4_invalid_request_echo sampleQuerier (Json.obj []) 5).2.2 {} Json.null rfl rfl⟩

/-- C5: `ToQuerierResult` classifies a responder outcome into exactly one of
three tiers — nil error wraps the payload as inner success, an error that
`ToSystemError` classifies as a system error becomes the outer error branch,
and any other error becomes the inner business failure carrying the error's
message. -/
theorem c5_three_tiers (response : Bytes) (e : GoError) :
    ToQuerierResult response none =
      { Ok := some { Ok := response, Err := "" }, Err := none } ∧
    (∀ s, ToSystemError e = some s →
      ToQuerierResult response (some e) = { Ok := none, Err := some s }) ∧
    (ToSystemError e = none →
      ToQuerierResult response (some e) =
        { Ok := some { Ok := [], Err := e.Error }, Err := none }) := by
  refine ⟨rfl, ?_, ?_⟩
  · intro s hs
    simp [ToQuerierResult, hs]
  · intro hn
    simp [ToQuerierResult, hn]

theorem c5_three_tiers_witness :
    ToQuerierResult [1] none = { Ok := some { Ok := [1], Err := "" }, Err := none } ∧
    ToQuerierResult [1] (some (.system { Unknown := some () } "kaboom")) =
      { Ok := none, Err := some { Unknown := some () } } ∧
    ToQuerierResult [1] (some (.plain "down")) =
      { Ok := some { Ok := [], Err := "down" }, Err := none } :=
  ⟨(c5_three_tiers [1] (.plain "down")).1,
   (c5_three_tiers [1] (.system { Unknown := some () } "kaboom")).2.1 _ rfl,
   (c5_three_tiers [1] (.plain "down")).2.2 rfl⟩

/-- C6: a `RawRangeEntry` is encoded on the wire as the two-element sequence
of its key bytes and value bytes (not a keyed object), and decoding any
byte-sequence list whose length is not exactly 2 is rejected with an
error. -/
theorem c6_rawrange_entry_two_elements (r : RawRangeEntry) (bss : List Bytes)
    (h : bss.length ≠ 2) :
    marshalRawRangeEntry r =
      .arr [.str (base64Encode r.Key), .str (base64Encode r.Value)] ∧
    unmarshalRawRangeEntry (encodeByteSlices bss) =
      .error ("invalid RawRange entry: expected array of length 2, got " ++
        toString bss.length) := by
  constructor
  · rfl
  · have hlist : asList asBytes (encodeByteSlices bss) = .ok bss := by
      simp [encodeByteSlices, asList,
        mapM_loop_encode (fun bs => Json.str (base64Encode bs)) asBytes asBytes_encode]
    rcases bss with _ | ⟨a, _ | ⟨b, _ | ⟨c, t⟩⟩⟩
    · simp [unmarshalRawRangeEntry, hlist, except_ok_bind]
    · simp [unmarshalRawRangeEntry, hlist, except_ok_bind]
    · exact absurd rfl h
    · simp [unmarshalRawRangeEntry, hlist, except_ok_bind]

theorem c6_rawrange_entry_two_elements_witness :
    marshalRawRangeEntry { Key := [1], Value := [2] } =
      .arr [.str (base64Encode [1]), .str (base64Encode [2])] ∧
    unmarshalRawRangeEntry (encodeByteSlices [[1], [2], [3]]) =
      .error ("invalid RawRange entry: expected array of length 2, got " ++
        toString ([[1], [2], [3]] : List Bytes).length) :=
  ⟨(c6_rawrange_entry_two_elements { Key := [1], Value := [2] } [[1], [2], [3]]
      (by decide)).1,
   (c6_rawrange_entry_two_elements { Key := [1], Value := [2] } [[1], [2], [3]]
      (by decide)).2⟩

/-- C7: decoding the encoding of a value returns the value, for every
request/response type declared in src/types/queries.go — the whole
`QueryRequest` taxonomy (hence every nested request leaf), `QueryResult`
with its custom serializer, `RawRangeEntry` with its special-cased
two-element codec, and every response shape (payload value types declared
outside the file pass through the codec opaquely; nil and empty byte slices
are identified). -/
theorem c7_roundtrip :
    (∀ v : QueryRequest, unmarshalQueryRequest (encodeQueryRequest v) = .ok v) ∧
    (∀ v : QueryResult, unmarshalQueryResult (marshalQueryResultJson v) = .ok v) ∧
    (∀ v : RawRangeEntry, unmarshalRawRangeEntry (marshalRawRangeEntry v) = .ok v) ∧
    (∀ v : RawRangeResponse, unmarshalRawRangeResponse (encodeRawRangeResponse v) = .ok v) ∧
    (∀ v : SupplyResponse, unmarshalSupplyResponse (encodeSupplyResponse v) = .ok v) ∧
    (∀ v : BalanceResponse, unmarshalBalanceResponse (encodeBalanceResponse v) = .ok v) ∧
    (∀ v : AllBalancesResponse,
      unmarshalAllBalancesResponse (encodeAllBalancesResponse v) = .ok v) ∧
    (∀ v : DenomMetadataResponse,
      unmarshalDenomMetadataResponse (encodeDenomMetadataResponse v) = .ok v) ∧
    (∀ v : AllDenomMetadataResponse,
      unmarshalAllDenomMetadataResponse (encodeAllDenomMetadataResponse v) = .ok v) ∧
    (∀ v : PortIDResponse, unmarshalPortIDResponse (encodePortIDResponse v) = .ok v) ∧
    (∀ v : ListChannelsResponse,
      unmarshalListChannelsResponse (encodeListChannelsResponse v) = .ok v) ∧
    (∀ v : ChannelResponse, unmarshalChannelResponse (encodeChannelResponse v) = .ok v) ∧
    (∀ v : Validator, unmarshalValidator (encodeValidator v) = .ok v) ∧
    (∀ v : AllValidatorsResponse,
      unmarshalAllValidatorsResponse (encodeAllValidatorsResponse v) = .ok v) ∧
    (∀ v : ValidatorResponse,
      unmarshalValidatorResponse (encodeValidatorResponse v) = .ok v) ∧
    (∀ v : Delegation, unmarshalDelegation (encodeDelegation v) = .ok v) ∧
    (∀ v : AllDelegationsResponse,
      unmarshalAllDelegationsResponse (encodeAllDelegationsResponse v) = .ok v) ∧
    (∀ v : FullDelegation, unmarshalFullDelegation (encodeFullDelegation v) = .ok v) ∧
    (∀ v : DelegationResponse,
      unmarshalDelegationResponse (encodeDelegationResponse v) = .ok v) ∧
    (∀ v : BondedDenomResponse,
      unmarshalBondedDenomResponse (encodeBondedDenomResponse v) = .ok v) ∧
    (∀ v : DelegatorWithdrawAddressResponse,
      unmarshalDelegatorWithdrawAddressResponse (encodeDelegatorWithdrawAddressResponse v) =
        .ok v) ∧
    (∀ v : DelegationRewardsResponse,
      unmarshalDelegationRewardsResponse (encodeDelegationRewardsResponse v) = .ok v) ∧
    (∀ v : DelegatorReward, unmarshalDelegatorReward (encodeDelegatorReward v) = .ok v) ∧
    (∀ v : DelegationTotalRewardsResponse,
      unmarshalDelegationTotalRewardsResponse (encodeDelegationTotalRewardsResponse v) = .ok v) ∧
    (∀ v : DelegatorValidatorsResponse,
      unmarshalDelegatorValidatorsResponse (encodeDelegatorValidatorsResponse v) = .ok v) ∧
    (∀ v : ContractInfoResponse,
      unmarshalContractInfoResponse (encodeContractInfoResponse v) = .ok v) ∧
    (∀ v : CodeInfoResponse, unmarshalCodeInfoResponse (encodeCodeInfoResponse v) = .ok v) :=
  ⟨unmarshal_encode_QueryRequest, unmarshal_marshal_QueryResult, unmarshal_marshal_RawRangeEntry,
   unmarshal_encode_RawRangeResponse, unmarshal_encode_SupplyResponse,
   unmarshal_encode_BalanceResponse, unmarshal_encode_AllBalancesResponse,
   unmarshal_encode_DenomMetadataResponse, unmarshal_encode_AllDenomMetadataResponse,
   unmarshal_encode_PortIDResponse, unmarshal_encode_ListChannelsResponse,
   unmarshal_encode_ChannelResponse, unmarshal_encode_Validator,
   unmarshal_encode_AllValidatorsResponse, unmarshal_encode_ValidatorResponse,
   unmarshal_encode_Delegation, unmarshal_encode_AllDelegationsResponse,
   unmarshal_encode_FullDelegation, unmarshal_encode_DelegationResponse,
   unmarshal_encode_BondedDenomResponse, unmarshal_encode_DelegatorWithdrawAddressResponse,
   unmarshal_encode_DelegationRewardsResponse, unmarshal_encode_DelegatorReward,
   unmarshal_encode_DelegationTotalRewardsResponse,
   unmarshal_encode_DelegatorValidatorsResponse, unmarshal_encode_ContractInfoResponse,
   unmarshal_encode_CodeInfoResponse⟩

/-- C8 counterexample: `ValidatorResponse` with an unset validator encodes
its field as an explicit `null` placeholder (deliberately, per the Go source
comment) — not every wire shape omits absent optional fields. -/
theorem c8_counterexample :
    encodeValidatorResponse { Validator := none } = .obj [("validator", Json.null)] := rfl

/-- C8 (amended): every optional field tagged `omitempty` (all union
branches, the optional range bounds, the optional contract-info strings) is
omitted entirely from the wire object when absent or default-valued; but the
fields declared WITHOUT `omitempty` — `ValidatorResponse.validator` (null
when unset, matching Rust's Option::None serialization) and
`RawRangeResponse`'s `data`/`next_key` — are always emitted. -/
theorem c8_omitempty_fields :
    (∀ q : QueryRequest,
      ("bank" ∈ (encodeQueryRequest q).objKeys ↔ q.Bank.isSome = true) ∧
      ("custom" ∈ (encodeQueryRequest q).objKeys ↔ q.Custom.isSome = true) ∧
      ("ibc" ∈ (encodeQueryRequest q).objKeys ↔ q.IBC.isSome = true) ∧
      ("staking" ∈ (encodeQueryRequest q).objKeys ↔ q.Staking.isSome = true) ∧
      ("distribution" ∈ (encodeQueryRequest q).objKeys ↔ q.Distribution.isSome = true) ∧
      ("stargate" ∈ (encodeQueryRequest q).objKeys ↔ q.Stargate.isSome = true) ∧
      ("grpc" ∈ (encodeQueryRequest q).objKeys ↔ q.Grpc.isSome = true) ∧
      ("wasm" ∈ (encodeQueryRequest q).objKeys ↔ q.Wasm.isSome = true)) ∧
    (∀ r : QuerierResult,
      ("ok" ∈ (encodeQuerierResult r).objKeys ↔ r.Ok.isSome = true) ∧
      ("error" ∈ (encodeQuerierResult r).objKeys ↔ r.Err.isSome = true)) ∧
    (∀ q : RawRangeQuery,
      ("start" ∈ (encodeRawRangeQuery q).objKeys ↔ q.Start ≠ []) ∧
      ("end" ∈ (encodeRawRangeQuery q).objKeys ↔ q.End ≠ [])) ∧
    (∀ r : ContractInfoResponse,
      ("admin" ∈ (encodeContractInfoResponse r).objKeys ↔ r.Admin ≠ "") ∧
      ("ibc_port" ∈ (encodeContractInfoResponse r).objKeys ↔ r.IBCPort ≠ "") ∧
      ("ibc2_port" ∈ (encodeContractInfoResponse r).objKeys ↔ r.IBC2Port ≠ "")) ∧
    (∀ r : ChannelResponse,
      ("channel" ∈ (encodeChannelResponse r).objKeys ↔ r.Channel.isSome = true)) ∧
    (∀ r : ValidatorResponse, "validator" ∈ (encodeValidatorResponse r).objKeys) ∧
    (∀ r : ValidatorResponse, r.Validator = none →
      ("validator", Json.null) ∈
        (match encodeValidatorResponse r with | .obj fs => fs | _ => [])) ∧
    (∀ r : RawRangeResponse,
      "data" ∈ (encodeRawRangeResponse r).objKeys ∧
      "next_key" ∈ (encodeRawRangeResponse r).objKeys) := by
  refine ⟨?_, ?_, ?_, ?_, ?_, ?_, ?_, ?_⟩
  · intro q
    refine ⟨?_, ?_, ?_, ?_, ?_, ?_, ?_, ?_⟩ <;>
      simp [objKeys_encodeQueryRequest, mem_ite_singleton]
  · intro r
    constructor <;> simp [objKeys_encodeQuerierResult, mem_ite_singleton]
  · intro q
    constructor <;>
      by_cases h : q.Start = [] <;> by_cases h2 : q.End = [] <;>
        simp [objKeys_encodeRawRangeQuery, h, h2]
  · intro r
    refine ⟨?_, ?_, ?_⟩ <;>
      by_cases h : r.Admin = "" <;> by_cases h2 : r.IBCPort = "" <;>
        by_cases h3 : r.IBC2Port = "" <;>
        simp [objKeys_encodeContractInfoResponse, h, h2, h3]
  · intro r
    simp [objKeys_encodeChannelResponse, mem_ite_singleton]
  · intro r
    simp [objKeys_encodeValidatorResponse]
  · intro r hr
    simp [encodeValidatorResponse, hr]
  · intro r
    simp [objKeys_encodeRawRangeResponse]

/-- C9: whenever the start bound is lexicographically not strictly before the
end bound (both bounds present), the range scan returns zero entries and an
absent next key, identically for ascending and descending order. -/
theorem c9_empty_range_symmetry (store : List (Bytes × Bytes)) (q : RawRangeQuery)
    (hs : q.Start ≠ []) (he : q.End ≠ []) (hlt : lexLt q.Start q.End = false) :
    rawRangeScan store { q with Order := "ascending" } = { Data := [], NextKey := [] } ∧
    rawRangeScan store { q with Order := "descending" } = { Data := [], NextKey := [] } :=
  ⟨rawRangeScan_empty store { q with Order := "ascending" } hs he hlt,
   rawRangeScan_empty store { q with Order := "descending" } hs he hlt⟩

theorem c9_empty_range_symmetry_witness :
    rawRangeScan [([97], [1])]
        { ContractAddr := "c", Start := [97], End := [97], Limit := 10,
          Order := "ascending" } = { Data := [], NextKey := [] } ∧
    rawRangeScan [([97], [1])]
        { ContractAddr := "c", Start := [97], End := [97], Limit := 10,
          Order := "descending" } = { Data := [], NextKey := [] } :=
  ⟨(c9_empty_range_symmetry [([97], [1])]
      { ContractAddr := "c", Start := [97], End := [97], Limit := 10, Order := "ascending" }
      (by decide) (by decide) (by decide)).1,
   (c9_empty_range_symmetry [([97], [1])]
      { ContractAddr := "c", Start := [97], End := [97], Limit := 10, Order := "ascending" }
      (by decide) (by decide) (by decide)).2⟩

/-- C10: for every input wire value (anything raw bytes can parse to, with
unparseable bytes exercising the same decode-failure branch) and every
querier, `RustQuery` returns a `QuerierResult` with exactly one of `Ok` and
`Err` non-nil — never both, never neither. -/
theorem c10_exactly_one_branch (querier : Querier) (j : Json) (gasLimit : Nat) :
    ((RustQuery querier j gasLimit).Ok.isSome = true ∧
      (RustQuery querier j gasLimit).Err = none) ∨
    ((RustQuery querier j gasLimit).Ok = none ∧
      (RustQuery querier j gasLimit).Err.isSome = true) := by
  rcases h : unmarshalQueryRequest j with e | req
  · right
    simp [RustQuery, h]
  · have := toQuerierResult_exactly_one (querier.query req gasLimit).1
      (querier.query req gasLimit).2
    simpa [RustQuery, h] using this
